import Mathlib

/-!
# Verification of the empir.io territorial-control map core

Shallow embedding of the repository's core (grid/cell data model, zone-of-control
generator, shading passes, combat resolver, persistence) and proofs of the spec's
claims about it.

Sources embedded:
* `map_loader_dynamic.py` — `Cell`, `load_grid`, `save_temp_map`, `neighbors`,
  `orthogonal_neighbors`, `apply_variance`, `shade_grid`, `add_city_with_zone`,
  `compute_zone`, `shade_city_and_zone`, and the color tables.
* `old/viewer.py` — `launch_attack`.

Modelling conventions:
* Python's global `random` stream is modelled by an explicit stream of naturals
  (`Rng`) threaded through every function that draws from it.  `random.random()`
  is modelled as a rational in `[0, 1)`; `random.randint`/`choice`/`shuffle`
  consume naturals from the stream.  All theorems are universally quantified
  over the stream.
* Grids are `List (List Cell)`; in-place field mutation of a cell object becomes
  a positional update of the cell value at the object's `(x, y)` coordinates.
  The two coincide on well-formed grids (`WFGrid`: every stored coordinate pair
  equals the cell's position in the collection), which is the hypothesis carried
  by the theorems that talk about grids after mutation.
* The unbounded `while` loop of `compute_zone` is embedded with explicit fuel
  `w*h + 1`; each BFS dequeue consumes one unit and every enqueue records a
  fresh in-bounds position in `visited`, so the fuel is never exhausted on the
  actual traversal.  The bounded 100-attempt loop of `add_city_with_zone` is
  structural recursion on the remaining attempt count.
* File I/O is external to the core: `save_temp_map`/`load_grid` are embedded as
  pure serialisation to/from `MapData`, the flat cell-array schema of the JSON
  file (`Option` fields model keys that may be absent).
-/

/-! ## Randomness -/

/-- Explicit model of Python's process-wide `random` stream: an infinite stream
of naturals together with a cursor. -/
structure Rng where
  stream : Nat → Nat
  pos : Nat
deriving Inhabited

/-- Draw one natural from the stream. -/
def Rng.next (r : Rng) : Nat × Rng :=
  (r.stream r.pos, ⟨r.stream, r.pos + 1⟩)

/-- Model of `random.random()`: a rational in `[0, 1)` derived from one draw. -/
def randomFloat (r : Rng) : ℚ × Rng :=
  let (n, r') := r.next
  (((n % 1000000 : Nat) : ℚ) / 1000000, r')

/-- Model of `random.randint(-amount, amount)` (both bounds inclusive). -/
def randIntSym (amount : Nat) (r : Rng) : Int × Rng :=
  let (n, r') := r.next
  (((n % (2 * amount + 1) : Nat) : Int) - (amount : Int), r')

/-- Model of `random.choice(l)` for nonempty `l` (the call sites guarantee
nonemptiness); the index is one draw reduced mod the length. -/
def randChoice {α : Type} [Inhabited α] (l : List α) (r : Rng) : α × Rng :=
  let (n, r') := r.next
  (l.getD (n % l.length) default, r')

/-- One selection step of the `random.shuffle` model: draw an index, move that
element to the front, recurse on the rest.  Produces a permutation of the input
for every stream; the fuel equals the list length at the top-level call. -/
def randShuffleAux {α : Type} [DecidableEq α] : Nat → List α → Rng → List α × Rng
  | 0, _, r => ([], r)
  | _ + 1, [], r => ([], r)
  | fuel + 1, x :: xs, r =>
    let l := x :: xs
    let (n, r') := r.next
    let a := l.getD (n % l.length) x
    let (rest, r'') := randShuffleAux fuel (l.erase a) r'
    (a :: rest, r'')

/-- Model of `random.shuffle(l)` (returning the shuffled list). -/
def randShuffle {α : Type} [DecidableEq α] (l : List α) (r : Rng) : List α × Rng :=
  randShuffleAux l.length l r

/-! ## Color tables (`COLORS`, `PLAYER_COLORS`, `CITY_COLORS`) -/

/-- An RGB color, channels `0..255`. -/
abbrev Color := Nat × Nat × Nat

/-- The `COLORS` dict: terrain name → base color. -/
def COLORS : String → Option Color
  | "mountain" => some (120, 120, 120)
  | "earth" => some (60, 160, 80)
  | "water" => some (60, 100, 200)
  | "light_water" => some (100, 160, 240)
  | "snow_mountain" => some (240, 240, 240)
  | _ => none

/-- The `PLAYER_COLORS` dict: player id 1..8 → territory color. -/
def PLAYER_COLORS : Nat → Option Color
  | 1 => some (180, 80, 80)
  | 2 => some (80, 120, 200)
  | 3 => some (200, 180, 80)
  | 4 => some (255, 255, 255)
  | 5 => some (80, 200, 120)
  | 6 => some (200, 80, 200)
  | 7 => some (255, 165, 0)
  | 8 => some (50, 50, 50)
  | _ => none

/-- The `CITY_COLORS` dict: player id 1..8 → city color (uniformly black). -/
def CITY_COLORS : Nat → Option Color
  | 1 => some (0, 0, 0)
  | 2 => some (0, 0, 0)
  | 3 => some (0, 0, 0)
  | 4 => some (0, 0, 0)
  | 5 => some (0, 0, 0)
  | 6 => some (0, 0, 0)
  | 7 => some (0, 0, 0)
  | 8 => some (0, 0, 0)
  | _ => none

/-- Embeds `CITY_COLORS.get(cell.owner, (0, 0, 0))`: a `None` owner or an id outside
the table falls back to black. -/
def cityColorOf (owner : Option Nat) : Color :=
  match owner with
  | some p => (CITY_COLORS p).getD (0, 0, 0)
  | none => (0, 0, 0)

/-- Embeds `PLAYER_COLORS.get(cell.owner, (180, 180, 180))`. -/
def playerColorOf (owner : Option Nat) : Color :=
  match owner with
  | some p => (PLAYER_COLORS p).getD (180, 180, 180)
  | none => (180, 180, 180)

/-! ## The `Cell` data model and grids -/

/-- The `Cell` class of `map_loader_dynamic.py`. -/
structure Cell where
  x : Nat
  y : Nat
  terrain : String
  owner : Option Nat
  is_city : Bool
  in_zone : Bool
  display_color : Color
deriving DecidableEq, Repr

/-- Placeholder cell used as the `getD` default for out-of-bounds reads (the
Python code never performs such a read: every access is bounds-checked). -/
def defaultCell : Cell :=
  { x := 0, y := 0, terrain := "", owner := none, is_city := false,
    in_zone := false, display_color := (0, 0, 0) }

instance : Inhabited Cell := ⟨defaultCell⟩

/-- Embeds `Cell.__init__`: `in_zone` starts `False`; `display_color` is
`COLORS.get(terrain, (255, 0, 0))`. -/
def mkCell (x y : Nat) (terrain : String) (owner : Option Nat) (is_city : Bool) : Cell :=
  { x := x, y := y, terrain := terrain, owner := owner, is_city := is_city,
    in_zone := false, display_color := (COLORS terrain).getD (255, 0, 0) }

/-- A grid is a row-major list of rows of cells (`grid[y][x]`). -/
abbrev Grid := List (List Cell)

/-- Embeds `len(grid)`. -/
def gridH (g : Grid) : Nat := g.length

/-- Embeds `len(grid[0])`. -/
def gridW (g : Grid) : Nat := (g.headD []).length

/-- Embeds `grid[y][x]` (always in bounds at the Python call sites). -/
def getCell (g : Grid) (x y : Nat) : Cell :=
  (g.getD y []).getD x defaultCell

/-- In-place mutation of the cell object at `(x, y)` becomes a positional
update of the stored value. -/
def updateAt (g : Grid) (x y : Nat) (f : Cell → Cell) : Grid :=
  g.set y ((g.getD y []).set x (f (getCell g x y)))

/-- Embeds `0 <= nx < w and 0 <= ny < h`. -/
def inBoundsI (g : Grid) (nx ny : Int) : Prop :=
  0 ≤ nx ∧ nx < (gridW g : Int) ∧ 0 ≤ ny ∧ ny < (gridH g : Int)

instance (g : Grid) (nx ny : Int) : Decidable (inBoundsI g nx ny) := by
  unfold inBoundsI; infer_instance

/-- Embeds `range(a, b)` over the integers. -/
def intRange (a b : Int) : List Int :=
  (List.range (b - a).toNat).map (fun i => a + (i : Int))

/-- Embeds `neighbors(grid, x, y, radius)`: all in-bounds cells within Chebyshev
distance `radius`, excluding the center, in the source's `dy`-outer /
`dx`-inner iteration order. -/
def neighbors (grid : Grid) (x y : Nat) (radius : Nat := 1) : List Cell :=
  (intRange (-(radius : Int)) ((radius : Int) + 1)).flatMap (fun dy =>
    (intRange (-(radius : Int)) ((radius : Int) + 1)).filterMap (fun dx =>
      if dx = 0 ∧ dy = 0 then none
      else
        let nx := (x : Int) + dx
        let ny := (y : Int) + dy
        if inBoundsI grid nx ny then some (getCell grid nx.toNat ny.toNat) else none))

/-- Embeds `orthogonal_neighbors(grid, x, y, distance)`: for each step `d = 1..distance`
the in-bounds up/down/left/right cells exactly `d` away, in the source's order
`(-d,0), (d,0), (0,-d), (0,d)`. -/
def orthogonal_neighbors (grid : Grid) (x y : Nat) (distance : Nat := 1) : List Cell :=
  ((List.range distance).flatMap (fun i =>
    let d : Int := (i : Int) + 1
    [(-d, 0), (d, 0), (0, -d), (0, d)])).filterMap (fun p =>
      let nx := (x : Int) + p.1
      let ny := (y : Int) + p.2
      if inBoundsI grid nx ny then some (getCell grid nx.toNat ny.toNat) else none)

/-! ## Persistence (`load_grid` / `save_temp_map`) -/

/-- One cell record of the persisted JSON map; `Option` marks fields that may
be absent (for `owner`, an absent key and a JSON `null` both read back as
`None`, so both are `none`). -/
structure CellData where
  terrain : Option String
  owner : Option Nat
  is_city : Option Bool
deriving DecidableEq, Repr

/-- The persisted map document (`rows`, `columns`, row-major `cells`). -/
structure MapData where
  rows : Option Nat
  columns : Option Nat
  cells : List (List CellData)
deriving DecidableEq, Repr

/-- Embeds `load_grid`: build `rows × columns` fresh `Cell`s from the document, with
the source's defaults `rows=18`, `cols=30`, `terrain="earth"`, `owner=None`,
`is_city=False`. -/
def load_grid (data : MapData) : Grid × Nat × Nat :=
  let rows := data.rows.getD 18
  let cols := data.columns.getD 30
  let grid := (List.range rows).map (fun y =>
    (List.range cols).map (fun x =>
      let cd := (data.cells.getD y []).getD x ⟨none, none, none⟩
      mkCell x y (cd.terrain.getD "earth") cd.owner (cd.is_city.getD false)))
  (grid, rows, cols)

/-- Embeds `save_temp_map`: serialise `terrain`, `owner`, `is_city` of every cell
(and only those fields) together with the dimensions. -/
def save_temp_map (grid : Grid) : MapData :=
  { columns := some (gridW grid)
    rows := some (gridH grid)
    cells := grid.map (fun row => row.map (fun c =>
      ⟨some c.terrain, c.owner, some c.is_city⟩)) }

/-! ## Terrain shading pass (`apply_variance`, `shade_grid`) -/

/-- Embeds `apply_variance(color, amount=0)`: one draw `variation ∈ [-amount, amount]`
shared by all three channels, applied to red and blue at a third of its
magnitude (Python floor division, hence `Int.fdiv`), each channel clamped to
`[0, 255]`. -/
def apply_variance (color : Color) (amount : Nat := 0) (r : Rng) : Color × Rng :=
  let (variation, r') := randIntSym amount r
  let clamp : Int → Nat := fun z => (max 0 (min 255 z)).toNat
  ((clamp ((color.1 : Int) + variation.fdiv 3),
    clamp ((color.2.1 : Int) + variation),
    clamp ((color.2.2 : Int) + variation.fdiv 3)), r')

/-- The base-color selection of one `shade_grid` iteration for the cell at
`(x, y)`: the water / mountain / earth / fallback branches, drawing from the
stream exactly where the source does (the 50% light-water and snow chances).
Reads only `terrain` fields, which the pass never writes, so it reads the
pre-pass grid. -/
def shadeCellTerrain (grid : Grid) (x y : Nat) (r : Rng) : Color × Rng :=
  let cell := getCell grid x y
  if cell.terrain = "water" then
    let near_land_1 := (neighbors grid x y 1).any (fun n => n.terrain ≠ "water")
    let near_land_2 := (neighbors grid x y 2).any (fun n => n.terrain ≠ "water")
    if near_land_1 then ((COLORS "light_water").getD (255, 0, 0), r)
    else if near_land_2 then
      let (u, r') := randomFloat r
      (if u < 1/2 then (COLORS "light_water").getD (255, 0, 0)
       else (COLORS "water").getD (255, 0, 0), r')
    else ((COLORS "water").getD (255, 0, 0), r)
  else if cell.terrain = "mountain" then
    let neigh := neighbors grid x y 1
    if neigh.all (fun n => n.terrain = "mountain") then
      let (u, r') := randomFloat r
      (if u < 1/2 then (COLORS "snow_mountain").getD (255, 0, 0)
       else (COLORS "mountain").getD (255, 0, 0), r')
    else ((COLORS "mountain").getD (255, 0, 0), r)
  else if cell.terrain = "earth" then ((COLORS "earth").getD (255, 0, 0), r)
  else ((255, 0, 0), r)

/-- The row-major position list `for y in range(h): for x in range(w)`. -/
def rowMajor (g : Grid) : List (Nat × Nat) :=
  (List.range (gridH g)).flatMap (fun y => (List.range (gridW g)).map (fun x => (x, y)))

/-- The `shade_grid` loop body applied along a position list, threading the
stream in iteration order; each step sets `cell.display_color =
apply_variance(base)` (the default `amount = 0` of the source call). -/
def shadeGridAux (grid : Grid) : List (Nat × Nat) → Grid → Rng → Grid × Rng
  | [], acc, r => (acc, r)
  | (x, y) :: ps, acc, r =>
    let (base, r₁) := shadeCellTerrain grid x y r
    let (col, r₂) := apply_variance base 0 r₁
    shadeGridAux grid ps (updateAt acc x y (fun c => { c with display_color := col })) r₂

/-- Embeds `shade_grid`: terrain-pass display colors for every cell, row-major. -/
def shade_grid (grid : Grid) (r : Rng) : Grid × Rng :=
  shadeGridAux grid (rowMajor grid) grid r

/-! ## Ownership shading pass (`shade_city_and_zone`) -/

/-- The interior-zone 50/50 blend
`tuple(int(base[i] * 0.5 + overlay[i] * 0.5) for i in range(3))`: for channel
values `0..255` both halves are exact in binary floating point and `int`
truncates the exact half-sum, which is `(base[i] + overlay[i]) / 2` in `Nat`
division. -/
def blend (base overlay : Color) : Color :=
  ((base.1 + overlay.1) / 2, (base.2.1 + overlay.2.1) / 2, (base.2.2 + overlay.2.2) / 2)

/-- The per-cell body of `shade_city_and_zone`.  The pass writes only
`display_color` and reads only `terrain` / `owner` / `is_city` / `in_zone`
of the cell and its orthogonal neighbors — fields it never writes — so the
source's in-place sweep computes exactly this function of the pre-pass grid. -/
def shadeCellOwnership (grid : Grid) (cell : Cell) : Cell :=
  let base_terrain_color := (COLORS cell.terrain).getD (255, 0, 0)
  if cell.is_city then
    { cell with display_color := cityColorOf cell.owner }
  else if cell.in_zone then
    let border := (orthogonal_neighbors grid cell.x cell.y 1).any
      (fun n => n.owner ≠ cell.owner)
    let color := playerColorOf cell.owner
    if border then { cell with display_color := color }
    else { cell with display_color := blend base_terrain_color color }
  else cell

/-- Embeds `shade_city_and_zone` over the whole grid.  The 50/50 blend
`int(base[i]*0.5 + overlay[i]*0.5)` is exact in binary floating point for
channel values `0..255` and truncates to `(base[i] + overlay[i]) / 2` in `Nat`
division. -/
def shade_city_and_zone (grid : Grid) : Grid :=
  grid.map (fun row => row.map (shadeCellOwnership grid))

/-! ## Zone generator (`compute_zone`, `add_city_with_zone`) -/

/-- The inner `for n in orth_neigh` push loop of `compute_zone`: skip a
neighbor already visited, not earth, or owned; otherwise record it visited and
append it to the queue. -/
def pushNeighbors : List Cell → List (Nat × Nat) → List Cell → List (Nat × Nat) × List Cell
  | [], visited, queue => (visited, queue)
  | n :: ns, visited, queue =>
    if (n.x, n.y) ∈ visited ∨ n.terrain ≠ "earth" ∨ n.owner ≠ none then
      pushNeighbors ns visited queue
    else
      pushNeighbors ns (visited ++ [(n.x, n.y)]) (queue ++ [n])

/-- The `while queue and len(zone_cells) < max_cells` loop of `compute_zone`,
with explicit fuel (one unit per dequeue; `w*h + 1` at the top level is enough
because every enqueue records a fresh in-bounds position in `visited`). -/
def computeZoneAux (grid : Grid) (city : Cell) (max_cells : Nat) :
    Nat → List Cell → List (Nat × Nat) → List Cell → Rng → Option (List Cell) × Rng
  | _, [], _, zone_cells, r =>
    (if zone_cells.length < max_cells then none else some zone_cells, r)
  | fuel, current :: rest, visited, zone_cells, r =>
    if zone_cells.length < max_cells then
      match fuel with
      | 0 => (none, r)
      | fuel' + 1 =>
        let zone' := if current ≠ city ∧ current.terrain = "earth"
          then zone_cells ++ [current] else zone_cells
        let (orth, r') := randShuffle (orthogonal_neighbors grid current.x current.y 1) r
        let (visited', queue') := pushNeighbors orth visited rest
        computeZoneAux grid city max_cells fuel' queue' visited' zone' r'
    else (some zone_cells, r)

/-- Embeds `compute_zone(grid, city, max_cells)`: randomized BFS from the city;
`None` when the frontier is exhausted with fewer than `max_cells` collected. -/
def compute_zone (grid : Grid) (city : Cell) (max_cells : Nat) (r : Rng) :
    Option (List Cell) × Rng :=
  computeZoneAux grid city max_cells (gridW grid * gridH grid + 1)
    [city] [(city.x, city.y)] [] r

/-- Embeds `city.is_city = True; city.owner = player_id`. -/
def setCityCell (p : Nat) (c : Cell) : Cell :=
  { c with is_city := true, owner := some p }

/-- Embeds `cell.in_zone = True; cell.owner = player_id`. -/
def setZoneCell (p : Nat) (c : Cell) : Cell :=
  { c with in_zone := true, owner := some p }

/-- The success-path mutations of `add_city_with_zone`: the city cell first,
then every zone cell in collection order. -/
def applyZone (grid : Grid) (city : Cell) (zone : List Cell) (player_id : Nat) : Grid :=
  zone.foldl (fun acc c => updateAt acc c.x c.y (setZoneCell player_id))
    (updateAt grid city.x city.y (setCityCell player_id))

/-- Embeds `earth_cells`: the unowned earth cells, row-major. -/
def earthCells (grid : Grid) : List Cell :=
  grid.flatMap (fun row => row.filter (fun c => c.terrain == "earth" && c.owner == none))

/-- Result of a zone-placement call: the returned city (or the raised error's
message), the grid as the caller sees it afterwards, the stream, and the value
of the source's `attempts` counter. -/
structure PlaceResult where
  res : Except String Cell
  grid : Grid
  rng : Rng
  attempts : Nat

/-- The placement-exhaustion error message of `add_city_with_zone`. -/
def exhaustMsg (player_id : Nat) : String :=
  "Could not place a city with enough earth for player " ++ toString player_id ++ "."

/-- The no-earth error message of `add_city_with_zone`. -/
def noEarthMsg (player_id : Nat) : String :=
  "No earth cells to place a city for player " ++ toString player_id ++ "!"

/-- Python truthiness of `compute_zone`'s result (`if zone:`): `None` and the
empty list are both falsy. -/
def zoneTruthy : Option (List Cell) → Bool
  | none => false
  | some zs => zs.length ≠ 0

/-- The `while attempts < 100` loop of `add_city_with_zone`, as recursion on
the remaining attempts.  A failed attempt performs no grid mutation; success
stamps the city and zone and returns the (mutated) city object. -/
def addCityAttempts (grid : Grid) (zone_size : Nat) (player_id : Nat)
    (earth_cells : List Cell) : Nat → Rng → PlaceResult
  | 0, r => ⟨.error (exhaustMsg player_id), grid, r, 0⟩
  | remaining + 1, r =>
    let (city, r₁) := randChoice earth_cells r
    let (zres, r₂) := compute_zone grid city zone_size r₁
    if zoneTruthy zres then
      ⟨.ok (setCityCell player_id city),
        applyZone grid city (zres.getD []) player_id, r₂, 1⟩
    else
      let rest := addCityAttempts grid zone_size player_id earth_cells remaining r₂
      ⟨rest.res, rest.grid, rest.rng, rest.attempts + 1⟩

/-- Embeds `add_city_with_zone(grid, zone_size=36, player_id=1)`.  The `save_temp_map`
call on the success path is external file I/O and does not touch the in-memory
grid, so it has no counterpart here. -/
def add_city_with_zone (grid : Grid) (zone_size : Nat := 36) (player_id : Nat := 1)
    (r : Rng) : PlaceResult :=
  let earth_cells := earthCells grid
  if earth_cells.length = 0 then ⟨.error (noEarthMsg player_id), grid, r, 0⟩
  else addCityAttempts grid zone_size player_id earth_cells 100 r

/-! ## Combat resolver (`launch_attack` of `old/viewer.py`) -/

/-- Count of orthogonal neighbors (up to the given distance) owned by the
attacker, player 1: the source's `owned_near` / `owned_neighbors`. -/
def ownedCount (grid : Grid) (x y : Nat) (distance : Nat) : Nat :=
  ((orthogonal_neighbors grid x y distance).filter (fun n => n.owner == some 1)).length

/-- The terrain-branch evaluation of one candidate defender cell (inside the
first qualifying attacker-neighbor's `if`), returning whether the cell joins
`attackable_cells`.  Branch order and stream draws follow the source: earth
non-city captures outright; mountain non-city and city cells draw once and
compare against `0.02*owned_near` resp. `0.01*owned_near`, additionally gated
on `owned_neighbors > 0`; water non-city draws once and compares against `0`. -/
def evalCapture (grid : Grid) (cell : Cell) (r : Rng) : Bool × Rng :=
  if cell.terrain = "earth" ∧ cell.is_city = false then (true, r)
  else if cell.terrain = "mountain" ∧ cell.is_city = false then
    let owned_near := ownedCount grid cell.x cell.y 2
    let owned_neighbors := ownedCount grid cell.x cell.y 1
    let (u, r') := randomFloat r
    (decide (u < (2 / 100 : ℚ) * owned_near) && decide (0 < owned_neighbors), r')
  else if cell.terrain = "water" ∧ cell.is_city = false then
    let (u, r') := randomFloat r
    (decide (u < (0 : ℚ)), r')
  else if cell.is_city then
    let owned_near := ownedCount grid cell.x cell.y 2
    let owned_neighbors := ownedCount grid cell.x cell.y 1
    let (u, r') := randomFloat r
    (decide (u < (1 / 100 : ℚ) * owned_near) && decide (0 < owned_neighbors), r')
  else (false, r)

/-- The four distance-1 neighbor positions probed by `launch_attack`, in source
order left, right, up, down. -/
def probeOffsets (cell : Cell) : List (Int × Int) :=
  [((cell.x : Int) - 1, (cell.y : Int)), ((cell.x : Int) + 1, (cell.y : Int)),
   ((cell.x : Int), (cell.y : Int) - 1), ((cell.x : Int), (cell.y : Int) + 1)]

/-- Does the in-bounds cell at `(nx, ny)` qualify as an attacking neighbor
(`owner == 1 and in_zone`)? -/
def qualifies (grid : Grid) (nx ny : Int) : Bool :=
  if inBoundsI grid nx ny then
    let n := getCell grid nx.toNat ny.toNat
    n.owner == some 1 && n.in_zone
  else false

/-- The inner neighbor loop for one defender cell: skip out-of-bounds and
non-qualifying positions; at the first qualifying neighbor evaluate the
terrain branch and `break`. -/
def scanAttack (grid : Grid) (cell : Cell) : List (Int × Int) → Rng → Bool × Rng
  | [], r => (false, r)
  | (nx, ny) :: rest, r =>
    if qualifies grid nx ny then evalCapture grid cell r
    else scanAttack grid cell rest r

/-- The outer double loop of `launch_attack` along the row-major cell list:
every cell owned by the target is scanned; captured cells are collected in
order into `attackable_cells`. -/
def collectAttackable (grid : Grid) (target : Option Nat) :
    List Cell → Rng → List Cell × Rng
  | [], r => ([], r)
  | c :: cs, r =>
    if c.owner = target then
      let (cap, r') := scanAttack grid c (probeOffsets c) r
      let (rest, r'') := collectAttackable grid target cs r'
      ((if cap then [c] else []) ++ rest, r'')
    else collectAttackable grid target cs r

/-- Embeds `attackable_cells` for a full run over the grid. -/
def attackableCells (grid : Grid) (target : Option Nat) (r : Rng) : List Cell × Rng :=
  collectAttackable grid target (grid.flatMap id) r

/-- Embeds `cell.owner = 1; cell.in_zone = True`. -/
def captureCell (c : Cell) : Cell :=
  { c with owner := some 1, in_zone := true }

/-- The capture sweep over `attackable_cells`. -/
def applyCaptures (grid : Grid) (att : List Cell) : Grid :=
  att.foldl (fun acc c => updateAt acc c.x c.y captureCell) grid

/-- Embeds `launch_attack(targetplayer)` of `old/viewer.py`, after the caller's
sentinel mapping (`"unowned"` becomes `None`, hence `target : Option Nat`):
collect `attackable_cells`; if any, capture them all and re-run
`shade_city_and_zone`, otherwise leave the grid untouched. -/
def launch_attack (grid : Grid) (target : Option Nat) (r : Rng) : Grid × Rng :=
  let (att, r') := attackableCells grid target r
  if att.length = 0 then (grid, r')
  else (shade_city_and_zone (applyCaptures grid att), r')

/-! ## Well-formedness and invariant predicates -/

/-- Well-formed grid: rectangular, and every cell's stored `(x, y)` equals its
position in the collection (the data-model invariant the loader establishes).
On such grids, positional updates coincide with Python's in-place mutation of
cell objects. -/
def WFGrid (g : Grid) : Prop :=
  (∀ y < gridH g, (g.getD y []).length = gridW g) ∧
  (∀ y < gridH g, ∀ x < gridW g, (getCell g x y).x = x ∧ (getCell g x y).y = y)

instance (g : Grid) : Decidable (WFGrid g) := by
  unfold WFGrid; infer_instance

/-- Orthogonal distance-1 adjacency of two cells, by their stored positions. -/
def adjacent (a b : Cell) : Prop :=
  (a.x = b.x ∧ (a.y + 1 = b.y ∨ b.y + 1 = a.y)) ∨
  (a.y = b.y ∧ (a.x + 1 = b.x ∨ b.x + 1 = a.x))

/-- Reachability from the city by orthogonal steps whose every non-seed stop
lies in the given zone. -/
inductive ReachableVia (zone : List Cell) (city : Cell) : Cell → Prop
  | refl : ReachableVia zone city city
  | step {b c : Cell} : ReachableVia zone city b → c ∈ zone → adjacent b c →
      ReachableVia zone city c

/-- The ownership invariant of one cell: `owner` is non-null iff the cell is a
city or in a zone. -/
def CellInv (c : Cell) : Prop :=
  c.owner ≠ none ↔ (c.is_city = true ∨ c.in_zone = true)

instance (c : Cell) : Decidable (CellInv c) := by
  unfold CellInv; infer_instance

/-- The ownership invariant over every cell of the grid. -/
def GridInv (g : Grid) : Prop :=
  ∀ y < g.length, ∀ x < (g.getD y []).length, CellInv (getCell g x y)

instance (g : Grid) : Decidable (GridInv g) := by
  unfold GridInv; infer_instance

/-! ## Basic grid lemmas -/

theorem gridW_eq_getD (g : Grid) : gridW g = (g.getD 0 []).length := by
  cases g <;> rfl

theorem length_updateAt (g : Grid) (x y : Nat) (f : Cell → Cell) :
    (updateAt g x y f).length = g.length := by
  simp [updateAt]

theorem getD_set_list {α : Type} (l : List α) (i j : Nat) (a d : α) :
    (l.set i a).getD j d = if i = j ∧ i < l.length then a else l.getD j d := by
  simp only [List.getD_eq_getElem?_getD, List.getElem?_set]
  by_cases h : i = j
  · subst h
    by_cases hl : i < l.length
    · simp [hl]
    · simp [hl, List.getElem?_eq_none_iff.mpr (Nat.le_of_not_lt hl)]
  · simp [h]

theorem getD_updateAt (g : Grid) (x y y' : Nat) (f : Cell → Cell) :
    (updateAt g x y f).getD y' [] =
      if y = y' ∧ y < g.length
      then (g.getD y []).set x (f (getCell g x y))
      else g.getD y' [] := by
  unfold updateAt
  exact getD_set_list g y y' _ []

theorem rowLen_updateAt (g : Grid) (x y y' : Nat) (f : Cell → Cell) :
    ((updateAt g x y f).getD y' []).length = (g.getD y' []).length := by
  rw [getD_updateAt]
  by_cases h : y = y' ∧ y < g.length
  · rw [if_pos h, List.length_set, h.1]
  · rw [if_neg h]

theorem gridH_updateAt (g : Grid) (x y : Nat) (f : Cell → Cell) :
    gridH (updateAt g x y f) = gridH g := by
  simp [gridH, updateAt]

theorem gridW_updateAt (g : Grid) (x y : Nat) (f : Cell → Cell) :
    gridW (updateAt g x y f) = gridW g := by
  rw [gridW_eq_getD, gridW_eq_getD, rowLen_updateAt]

theorem getCell_updateAt (g : Grid) (x y x' y' : Nat) (f : Cell → Cell) :
    getCell (updateAt g x y f) x' y' =
      if x = x' ∧ y = y' ∧ y < g.length ∧ x < (g.getD y []).length
      then f (getCell g x y)
      else getCell g x' y' := by
  unfold getCell
  rw [getD_updateAt]
  by_cases hy : y = y' ∧ y < g.length
  · obtain ⟨hy1, hy2⟩ := hy
    subst hy1
    rw [if_pos ⟨rfl, hy2⟩, getD_set_list]
    by_cases hx : x = x' ∧ x < (g.getD y []).length
    · rw [if_pos hx, if_pos ⟨hx.1, rfl, hy2, hx.2⟩]; rfl
    · rw [if_neg hx, if_neg (by intro h; exact hx ⟨h.1, h.2.2.2⟩)]
  · rw [if_neg hy, if_neg (by intro h; exact hy ⟨h.2.1, h.2.2.1⟩)]

theorem getCell_updateAt_same (g : Grid) (x y : Nat) (f : Cell → Cell)
    (hy : y < g.length) (hx : x < (g.getD y []).length) :
    getCell (updateAt g x y f) x y = f (getCell g x y) := by
  rw [getCell_updateAt, if_pos ⟨rfl, rfl, hy, hx⟩]

theorem getCell_updateAt_ne (g : Grid) (x y x' y' : Nat) (f : Cell → Cell)
    (h : ¬(x = x' ∧ y = y')) :
    getCell (updateAt g x y f) x' y' = getCell g x' y' := by
  rw [getCell_updateAt, if_neg (by intro hc; exact h ⟨hc.1, hc.2.1⟩)]

/-- A cell drawn from the row-major flattening, located positionally, on a
well-formed grid. -/
theorem mem_grid_getCell {g : Grid} (wf : WFGrid g) {c : Cell} {row : List Cell}
    (hrow : row ∈ g) (hc : c ∈ row) :
    c.y < gridH g ∧ c.x < gridW g ∧ getCell g c.x c.y = c := by
  obtain ⟨y, hy, hrowy⟩ := List.getElem_of_mem hrow
  obtain ⟨x, hx, hcx⟩ := List.getElem_of_mem hc
  have hgy : g.getD y [] = row := by
    rw [List.getD_eq_getElem?_getD, List.getElem?_eq_getElem hy, hrowy]; rfl
  have hylen : y < gridH g := hy
  have hrl : row.length = gridW g := by rw [← hgy]; exact wf.1 y hylen
  have hxw : x < gridW g := hrl ▸ hx
  have hcell : getCell g x y = c := by
    unfold getCell
    rw [hgy, List.getD_eq_getElem?_getD, List.getElem?_eq_getElem hx, hcx]; rfl
  have hco := wf.2 y hylen x hxw
  rw [hcell] at hco
  refine ⟨?_, ?_, ?_⟩
  · rw [hco.2]; exact hylen
  · rw [hco.1]; exact hxw
  · rw [hco.1, hco.2, hcell]

theorem getCell_mem {g : Grid} {x y : Nat} (hy : y < g.length)
    (hx : x < (g.getD y []).length) : ∃ row ∈ g, getCell g x y ∈ row := by
  refine ⟨g.getD y [], ?_, ?_⟩
  · rw [List.getD_eq_getElem?_getD, List.getElem?_eq_getElem hy]
    exact List.getElem_mem hy
  · unfold getCell
    rw [List.getD_eq_getElem?_getD (g.getD y []), List.getElem?_eq_getElem hx]
    exact List.getElem_mem hx

/-! ## Persistence lemmas -/

theorem getD_map_lt {α β : Type} (l : List α) (f : α → β) (i : Nat) (d : β) (d₀ : α)
    (h : i < l.length) : (l.map f).getD i d = f (l.getD i d₀) := by
  simp [List.getD_eq_getElem?_getD, List.getElem?_map, List.getElem?_eq_getElem h]

theorem getD_oob {α : Type} (l : List α) (i : Nat) (d : α) (h : l.length ≤ i) :
    l.getD i d = d := by
  simp [List.getD_eq_getElem?_getD, List.getElem?_eq_none_iff.mpr h]

theorem getD_range_map {β : Type} (n i : Nat) (f : Nat → β) (d : β) (h : i < n) :
    ((List.range n).map f).getD i d = f i := by
  simp [List.getD_eq_getElem?_getD, List.getElem?_map, List.getElem?_range, h]

theorem load_grid_dims (d : MapData) :
    (load_grid d).2.1 = d.rows.getD 18 ∧ (load_grid d).2.2 = d.columns.getD 30 ∧
    (load_grid d).1.length = d.rows.getD 18 := by
  simp [load_grid]

theorem getCell_load (d : MapData) (x y : Nat)
    (hy : y < d.rows.getD 18) (hx : x < d.columns.getD 30) :
    getCell (load_grid d).1 x y =
      mkCell x y (((d.cells.getD y []).getD x ⟨none, none, none⟩).terrain.getD "earth")
        ((d.cells.getD y []).getD x ⟨none, none, none⟩).owner
        (((d.cells.getD y []).getD x ⟨none, none, none⟩).is_city.getD false) := by
  unfold load_grid getCell
  rw [getD_range_map _ _ _ _ hy, getD_range_map _ _ _ _ hx]

theorem getD_mem_or_default {α : Type} (l : List α) (i : Nat) (d : α) :
    l.getD i d ∈ l ∨ l.getD i d = d := by
  by_cases h : i < l.length
  · left
    rw [List.getD_eq_getElem?_getD, List.getElem?_eq_getElem h]
    exact List.getElem_mem h
  · right
    exact getD_oob _ _ _ (Nat.le_of_not_lt h)

theorem load_grid_cells_in_zone_false (d : MapData) {row : List Cell} {c : Cell}
    (hrow : row ∈ (load_grid d).1) (hc : c ∈ row) : c.in_zone = false := by
  simp only [load_grid] at hrow
  obtain ⟨yy, _, hrow⟩ := List.mem_map.mp hrow
  rw [← hrow] at hc
  obtain ⟨xx, _, hcell⟩ := List.mem_map.mp hc
  rw [← hcell]
  rfl

theorem load_grid_in_zone_false (d : MapData) (x y : Nat) :
    (getCell (load_grid d).1 x y).in_zone = false := by
  unfold getCell
  rcases getD_mem_or_default ((load_grid d).1.getD y []) x defaultCell with hc | hc
  · rcases getD_mem_or_default (load_grid d).1 y [] with hrow | hrow
    · exact load_grid_cells_in_zone_false d hrow hc
    · rw [hrow] at hc
      exact absurd hc (List.not_mem_nil _)
  · rw [hc]
    rfl

theorem save_temp_map_cells (g : Grid) (x y : Nat) (hy : y < g.length)
    (hx : x < (g.getD y []).length) :
    ((save_temp_map g).cells.getD y []).getD x ⟨none, none, none⟩ =
      ⟨some (getCell g x y).terrain, (getCell g x y).owner,
        some (getCell g x y).is_city⟩ := by
  unfold save_temp_map getCell
  rw [getD_map_lt _ _ _ _ [] hy, getD_map_lt _ _ _ _ defaultCell hx]

theorem saveLoad_cell (g : Grid)
    (rect : ∀ y < g.length, (g.getD y []).length = gridW g)
    (x y : Nat) (hy : y < g.length) (hx : x < gridW g) :
    getCell (load_grid (save_temp_map g)).1 x y =
      mkCell x y (getCell g x y).terrain (getCell g x y).owner (getCell g x y).is_city := by
  have hrows : (save_temp_map g).rows.getD 18 = g.length := rfl
  have hcols : (save_temp_map g).columns.getD 30 = gridW g := rfl
  rw [getCell_load _ _ _ (by rw [hrows]; exact hy) (by rw [hcols]; exact hx),
    save_temp_map_cells g x y hy (by rw [rect y hy]; exact hx)]
  rfl

/-! ## Example inputs for the witnesses and counterexamples -/

/-- The all-zeros random stream. -/
def zeroRng : Rng := ⟨fun _ => 0, 0⟩

/-- A fresh unowned earth cell as the loader would construct it. -/
def exEarth (x y : Nat) : Cell := mkCell x y "earth" none false

/-- A 2×2 all-earth grid. -/
def exGrid22 : Grid := [[exEarth 0 0, exEarth 1 0], [exEarth 0 1, exEarth 1 1]]

/-- A 1×1 grid whose single cell is in a zone but unowned. -/
def exZoneNoOwner : Grid :=
  [[{ x := 0, y := 0, terrain := "earth", owner := none, is_city := false,
      in_zone := true, display_color := (60, 160, 80) }]]

/-- A persisted 1×1 map whose cell is owned but neither a city nor (after
loading) in a zone. -/
def exOwnedNonCityData : MapData :=
  { rows := some 1, columns := some 1,
    cells := [[{ terrain := some "earth", owner := some 1, is_city := some false }]] }

/-! ## C9 — save/load round trip -/

/-- Claim C9: For every (rectangular) grid, `save_temp_map` followed by
`load_grid` round-trips the persisted format: the reloaded grid has the same
rows and columns, every cell keeps its `terrain`, `owner` and `is_city`
values, and `display_color` is never persisted (saving is independent of it)
and is always recomputed from the terrain after load. -/
theorem c9_save_load_roundtrip (g : Grid)
    (rect : ∀ y < g.length, (g.getD y []).length = gridW g) :
    (load_grid (save_temp_map g)).2.1 = g.length ∧
    (load_grid (save_temp_map g)).2.2 = gridW g ∧
    (load_grid (save_temp_map g)).1.length = g.length ∧
    (∀ y < g.length, ∀ x < gridW g,
      (getCell (load_grid (save_temp_map g)).1 x y).terrain = (getCell g x y).terrain ∧
      (getCell (load_grid (save_temp_map g)).1 x y).owner = (getCell g x y).owner ∧
      (getCell (load_grid (save_temp_map g)).1 x y).is_city = (getCell g x y).is_city ∧
      (getCell (load_grid (save_temp_map g)).1 x y).display_color =
        (COLORS (getCell g x y).terrain).getD (255, 0, 0)) ∧
    (∀ f : Cell → Color,
      save_temp_map (g.map (fun row => row.map (fun c => { c with display_color := f c }))) =
        save_temp_map g) := by
  refine ⟨rfl, rfl, (load_grid_dims _).2.2, ?_, ?_⟩
  · intro y hy x hx
    rw [saveLoad_cell g rect x y hy hx]
    exact ⟨rfl, rfl, rfl, rfl⟩
  · intro f
    have hW : gridW (g.map (fun row => row.map fun c => { c with display_color := f c })) =
        gridW g := by
      cases g <;> simp [gridW]
    unfold save_temp_map
    rw [hW]
    have hH : gridH (g.map (fun row => row.map fun c => { c with display_color := f c })) =
        gridH g := by
      simp [gridH]
    rw [hH]
    congr 1
    simp [List.map_map, Function.comp]

/-- Witness for C9: the round trip instantiated on the concrete 2×2 earth
grid, the rectangularity hypothesis discharged by `decide`. -/
theorem c9_save_load_roundtrip_witness :
    (load_grid (save_temp_map exGrid22)).2.1 = exGrid22.length ∧
    (load_grid (save_temp_map exGrid22)).2.2 = gridW exGrid22 :=
  ⟨(c9_save_load_roundtrip exGrid22 (by decide)).1,
   (c9_save_load_roundtrip exGrid22 (by decide)).2.1⟩

/-! ## C10 — loading never restores zone membership -/

/-- Claim C10, amended: Every cell of a grid returned by `load_grid` has
`in_zone = false`, regardless of its persisted `owner` or `is_city`: zone
membership is not written by `save_temp_map` and not read by `load_grid`, so
saving and reloading a grid turns every `in_zone = true` cell into one that
retains its persisted owner (in particular a non-null owner stays non-null)
but has `in_zone = false`. -/
theorem c10_load_drops_in_zone (g : Grid)
    (rect : ∀ y < g.length, (g.getD y []).length = gridW g) :
    (∀ (d : MapData) (x y : Nat), (getCell (load_grid d).1 x y).in_zone = false) ∧
    (∀ y < g.length, ∀ x < gridW g, (getCell g x y).in_zone = true →
      (getCell (load_grid (save_temp_map g)).1 x y).owner = (getCell g x y).owner ∧
      (getCell (load_grid (save_temp_map g)).1 x y).in_zone = false) := by
  refine ⟨fun d x y => load_grid_in_zone_false d x y, ?_⟩
  intro y hy x hx _
  rw [saveLoad_cell g rect x y hy hx]
  exact ⟨rfl, rfl⟩

/-- Counterexample for C10 as stated: a grid containing a cell with
`in_zone = true` whose owner is null.  After saving and reloading, that cell's
owner is still null — not the non-null owner the claim asserts — while
`in_zone` has indeed been dropped to `false`. -/
theorem c10_counterexample :
    (getCell exZoneNoOwner 0 0).in_zone = true ∧
    (getCell (load_grid (save_temp_map exZoneNoOwner)).1 0 0).owner = none ∧
    (getCell (load_grid (save_temp_map exZoneNoOwner)).1 0 0).in_zone = false := by
  decide

/-- Witness for C10 (amended): instantiated on the concrete 1×1 grid with an
in-zone cell, hypotheses discharged by `decide`. -/
theorem c10_load_drops_in_zone_witness :
    (getCell (load_grid (save_temp_map exZoneNoOwner)).1 0 0).in_zone = false :=
  ((c10_load_drops_in_zone exZoneNoOwner (by decide)).2 0 (by decide) 0 (by decide)
    (by decide)).2

/-! ## C8 — terrain-pass variance -/

theorem randIntSym_zero (r : Rng) : randIntSym 0 r = (0, r.next.2) := by
  simp [randIntSym, Rng.next, Nat.mod_one]

theorem apply_variance_zero (c : Color) (r : Rng)
    (h1 : c.1 ≤ 255) (h2 : c.2.1 ≤ 255) (h3 : c.2.2 ≤ 255) :
    apply_variance c 0 r = (c, r.next.2) := by
  obtain ⟨a, b, d⟩ := c
  replace h1 : a ≤ 255 := h1
  replace h2 : b ≤ 255 := h2
  replace h3 : d ≤ 255 := h3
  simp only [apply_variance, randIntSym, Nat.mod_one, Nat.cast_zero, Rng.next]
  refine Prod.ext (Prod.ext ?_ (Prod.ext ?_ ?_)) rfl <;> simp <;> omega

theorem shadeCellTerrain_earth (g : Grid) (x y : Nat) (r : Rng)
    (ht : (getCell g x y).terrain = "earth") :
    (shadeCellTerrain g x y r).1 = (60, 160, 80) := by
  simp [shadeCellTerrain, ht, COLORS]

theorem shadeCellTerrain_water (g : Grid) (x y : Nat) (r : Rng)
    (ht : (getCell g x y).terrain = "water") :
    (shadeCellTerrain g x y r).1 = (60, 100, 200) ∨
    (shadeCellTerrain g x y r).1 = (100, 160, 240) := by
  simp only [shadeCellTerrain, ht, COLORS]
  split_ifs <;> simp

theorem shadeCellTerrain_mountain (g : Grid) (x y : Nat) (r : Rng)
    (ht : (getCell g x y).terrain = "mountain") :
    (shadeCellTerrain g x y r).1 = (120, 120, 120) ∨
    (shadeCellTerrain g x y r).1 = (240, 240, 240) := by
  simp only [shadeCellTerrain, ht, COLORS]
  split_ifs <;> simp_all

theorem shadeCellTerrain_le (g : Grid) (x y : Nat) (r : Rng) :
    (shadeCellTerrain g x y r).1.1 ≤ 255 ∧ (shadeCellTerrain g x y r).1.2.1 ≤ 255 ∧
      (shadeCellTerrain g x y r).1.2.2 ≤ 255 := by
  simp only [shadeCellTerrain, COLORS]
  split_ifs <;> simp

theorem shadeGridAux_getCell (g : Grid) (ps : List (Nat × Nat)) :
    ∀ (acc : Grid) (r : Rng), ps.Nodup →
    (∀ p ∈ ps, p.2 < acc.length ∧ p.1 < (acc.getD p.2 []).length) →
    ∀ x y : Nat,
      ((x, y) ∈ ps → ∃ r₀ : Rng,
        getCell (shadeGridAux g ps acc r).1 x y =
          { getCell acc x y with
            display_color := (apply_variance (shadeCellTerrain g x y r₀).1 0
              (shadeCellTerrain g x y r₀).2).1 }) ∧
      ((x, y) ∉ ps → getCell (shadeGridAux g ps acc r).1 x y = getCell acc x y) := by
  induction ps with
  | nil =>
    intro acc r _ _ x y
    exact ⟨fun h => absurd h (List.not_mem_nil _), fun _ => rfl⟩
  | cons p ps' ih =>
    obtain ⟨a, b⟩ := p
    intro acc r hnd hb x y
    have hstep : shadeGridAux g ((a, b) :: ps') acc r =
        shadeGridAux g ps' (updateAt acc a b (fun c =>
          { c with display_color := (apply_variance (shadeCellTerrain g a b r).1 0
              (shadeCellTerrain g a b r).2).1 }))
          (apply_variance (shadeCellTerrain g a b r).1 0 (shadeCellTerrain g a b r).2).2 := rfl
    rw [hstep]
    set acc' := updateAt acc a b (fun c =>
      { c with display_color := (apply_variance (shadeCellTerrain g a b r).1 0
          (shadeCellTerrain g a b r).2).1 }) with hacc'
    have hb' : ∀ p ∈ ps', p.2 < acc'.length ∧ p.1 < (acc'.getD p.2 []).length := by
      intro p hp
      have := hb p (List.mem_cons_of_mem _ hp)
      rw [hacc', length_updateAt, rowLen_updateAt]
      exact this
    have ihh := ih acc'
      ((apply_variance (shadeCellTerrain g a b r).1 0 (shadeCellTerrain g a b r).2).2)
      hnd.of_cons hb'
    refine ⟨?_, ?_⟩
    · intro hmem
      rcases List.mem_cons.mp hmem with heq | hmem'
      · rw [Prod.mk.injEq] at heq
        obtain ⟨rfl, rfl⟩ := heq
        have hnotin : (x, y) ∉ ps' := (List.nodup_cons.mp hnd).1
        refine ⟨r, ?_⟩
        have hbnd := hb (x, y) (List.mem_cons_self _ _)
        rw [(ihh x y).2 hnotin, hacc',
          getCell_updateAt_same _ _ _ _ hbnd.1 hbnd.2]
      · have hne : ¬(a = x ∧ b = y) := by
          rintro ⟨rfl, rfl⟩
          exact (List.nodup_cons.mp hnd).1 hmem'
        obtain ⟨r₀, hr₀⟩ := (ihh x y).1 hmem'
        rw [hacc', getCell_updateAt_ne _ _ _ _ _ _ hne] at hr₀
        exact ⟨r₀, hr₀⟩
    · intro hnotin
      have h1 : (x, y) ∉ ps' := fun hc => hnotin (List.mem_cons_of_mem _ hc)
      have hne : ¬(a = x ∧ b = y) := by
        rintro ⟨rfl, rfl⟩
        exact hnotin (List.mem_cons_self _ _)
      rw [(ihh x y).2 h1, hacc', getCell_updateAt_ne _ _ _ _ _ _ hne]

theorem mem_rowMajor (g : Grid) (x y : Nat) :
    (x, y) ∈ rowMajor g ↔ x < gridW g ∧ y < gridH g := by
  simp only [rowMajor, List.mem_flatMap, List.mem_map, List.mem_range, Prod.mk.injEq]
  constructor
  · rintro ⟨b, hb, a, ha, rfl, rfl⟩
    exact ⟨ha, hb⟩
  · rintro ⟨hx, hy⟩
    exact ⟨y, hy, x, hx, rfl, rfl⟩

theorem nodup_rowMajor (g : Grid) : (rowMajor g).Nodup := by
  unfold rowMajor
  apply List.nodup_flatMap.mpr
  refine ⟨fun y _ => ?_, ?_⟩
  · exact (List.nodup_range _).map (fun a b h => congrArg Prod.fst h)
  · have hlt := List.pairwise_lt_range (gridH g)
    refine hlt.imp ?_
    intro y₁ y₂ hy p hp₁ hp₂
    obtain ⟨x₁, _, rfl⟩ := List.mem_map.mp hp₁
    obtain ⟨x₂, _, heq⟩ := List.mem_map.mp hp₂
    have := congrArg Prod.snd heq
    simp only at this
    omega

theorem shade_grid_cell_display (g : Grid)
    (rect : ∀ y < g.length, (g.getD y []).length = gridW g) (r : Rng) (x y : Nat)
    (hy : y < gridH g) (hx : x < gridW g) :
    ∃ r₀ : Rng, getCell (shade_grid g r).1 x y =
      { getCell g x y with display_color := (shadeCellTerrain g x y r₀).1 } := by
  have hmem : (x, y) ∈ rowMajor g := (mem_rowMajor g x y).mpr ⟨hx, hy⟩
  have hb : ∀ p ∈ rowMajor g, p.2 < g.length ∧ p.1 < (g.getD p.2 []).length := by
    intro p hp
    obtain ⟨h1, h2⟩ := (mem_rowMajor g p.1 p.2).mp hp
    exact ⟨h2, by rw [rect p.2 h2]; exact h1⟩
  obtain ⟨r₀, hr₀⟩ :=
    (shadeGridAux_getCell g (rowMajor g) g r (nodup_rowMajor g) hb x y).1 hmem
  have hle := shadeCellTerrain_le g x y r₀
  rw [apply_variance_zero _ _ hle.1 hle.2.1 hle.2.2] at hr₀
  exact ⟨r₀, hr₀⟩

/-- Claim C8, amended: In the terrain pass, `apply_variance` perturbs the three
channels from a single shared draw — red and blue by a third of it (floor
division), green by all of it, clamped to `[0, 255]` — but `shade_grid` calls
it with the default `amount = 0`, so the jitter is identically zero: every
cell's display color after the pass is exactly its branch-selected base color
(earth, water/light-water, mountain/snow), for every random stream. -/
theorem c8_terrain_pass_zero_jitter (g : Grid)
    (rect : ∀ y < g.length, (g.getD y []).length = gridW g) (r : Rng) :
    (∀ (c : Color) (r' : Rng), c.1 ≤ 255 → c.2.1 ≤ 255 → c.2.2 ≤ 255 →
      apply_variance c 0 r' = (c, r'.next.2)) ∧
    (∀ y, y < gridH g → ∀ x, x < gridW g →
      (∃ r₀ : Rng, getCell (shade_grid g r).1 x y =
        { getCell g x y with display_color := (shadeCellTerrain g x y r₀).1 }) ∧
      ((getCell g x y).terrain = "earth" →
        (getCell (shade_grid g r).1 x y).display_color = (60, 160, 80)) ∧
      ((getCell g x y).terrain = "water" →
        (getCell (shade_grid g r).1 x y).display_color = (60, 100, 200) ∨
        (getCell (shade_grid g r).1 x y).display_color = (100, 160, 240)) ∧
      ((getCell g x y).terrain = "mountain" →
        (getCell (shade_grid g r).1 x y).display_color = (120, 120, 120) ∨
        (getCell (shade_grid g r).1 x y).display_color = (240, 240, 240))) := by
  refine ⟨fun c r' h1 h2 h3 => apply_variance_zero c r' h1 h2 h3, ?_⟩
  intro y hy x hx
  obtain ⟨r₀, hr₀⟩ := shade_grid_cell_display g rect r x y hy hx
  refine ⟨⟨r₀, hr₀⟩, ?_, ?_, ?_⟩
  · intro ht
    rw [hr₀]
    exact shadeCellTerrain_earth g x y r₀ ht
  · intro ht
    rw [hr₀]
    exact shadeCellTerrain_water g x y r₀ ht
  · intro ht
    rw [hr₀]
    exact shadeCellTerrain_mountain g x y r₀ ht

/-- Counterexample for C8 as stated: on a concrete all-earth grid no random
stream can make the terrain pass deviate from the base earth color — the
variance call is a no-op, so no "random per-channel jitter" is ever applied. -/
theorem c8_counterexample :
    ¬ ∃ r : Rng, (getCell (shade_grid exGrid22 r).1 0 0).display_color ≠ (60, 160, 80) := by
  rintro ⟨r, hr⟩
  obtain ⟨r₀, hr₀⟩ := shade_grid_cell_display exGrid22 (by decide) r 0 0
    (by decide) (by decide)
  rw [hr₀] at hr
  exact hr (shadeCellTerrain_earth exGrid22 0 0 r₀ (by decide))

/-- Witness for C8 (amended): the earth cell at the origin of the concrete
2×2 grid gets exactly the base earth color under the all-zeros stream. -/
theorem c8_terrain_pass_zero_jitter_witness :
    (getCell (shade_grid exGrid22 zeroRng).1 0 0).display_color = (60, 160, 80) :=
  (((c8_terrain_pass_zero_jitter exGrid22 (by decide) zeroRng).2 0 (by decide) 0
    (by decide)).2.1) (by decide)

/-! ## C7 — ownership shading pass -/

theorem getCell_shade_city_and_zone (g : Grid) (x y : Nat)
    (hy : y < g.length) (hx : x < (g.getD y []).length) :
    getCell (shade_city_and_zone g) x y = shadeCellOwnership g (getCell g x y) := by
  unfold shade_city_and_zone getCell
  rw [getD_map_lt _ _ _ _ [] hy, getD_map_lt _ _ _ _ defaultCell hx]

theorem length_shade_city_and_zone (g : Grid) :
    (shade_city_and_zone g).length = g.length := by
  simp [shade_city_and_zone]

theorem rowLen_shade_city_and_zone (g : Grid) (y : Nat) :
    ((shade_city_and_zone g).getD y []).length = (g.getD y []).length := by
  by_cases h : y < g.length
  · unfold shade_city_and_zone
    rw [getD_map_lt _ _ _ _ [] h]
    simp
  · rw [getD_oob _ _ _ (by simpa [shade_city_and_zone] using Nat.le_of_not_lt h),
      getD_oob _ _ _ (Nat.le_of_not_lt h)]

theorem shadeCellOwnership_fields (g : Grid) (c : Cell) :
    (shadeCellOwnership g c).x = c.x ∧ (shadeCellOwnership g c).y = c.y ∧
    (shadeCellOwnership g c).terrain = c.terrain ∧
    (shadeCellOwnership g c).owner = c.owner ∧
    (shadeCellOwnership g c).is_city = c.is_city ∧
    (shadeCellOwnership g c).in_zone = c.in_zone := by
  simp only [shadeCellOwnership]
  split_ifs <;> simp

/-- Claim C7: In `shade_city_and_zone`: a city cell is rendered with the fixed
per-player city color, which differs from that player's territory color for
every player id 1..8; a zone cell with an orthogonal neighbor of a different
owner is rendered with the player's solid territory color, and any other zone
cell as the 50/50 blend of the terrain base color with the territory color;
a cell that is neither a city nor in a zone is left entirely unchanged. -/
theorem c7_ownership_shading (g : Grid) (x y : Nat)
    (hy : y < g.length) (hx : x < (g.getD y []).length) :
    (∀ p, p ≤ 8 → 1 ≤ p → cityColorOf (some p) ≠ playerColorOf (some p)) ∧
    ((getCell g x y).is_city = true →
      (getCell (shade_city_and_zone g) x y).display_color =
        cityColorOf (getCell g x y).owner) ∧
    ((getCell g x y).is_city = false → (getCell g x y).in_zone = true →
      (((orthogonal_neighbors g (getCell g x y).x (getCell g x y).y 1).any
          (fun n => n.owner ≠ (getCell g x y).owner) = true →
        (getCell (shade_city_and_zone g) x y).display_color =
          playerColorOf (getCell g x y).owner) ∧
       ((orthogonal_neighbors g (getCell g x y).x (getCell g x y).y 1).any
          (fun n => n.owner ≠ (getCell g x y).owner) = false →
        (getCell (shade_city_and_zone g) x y).display_color =
          blend ((COLORS (getCell g x y).terrain).getD (255, 0, 0))
            (playerColorOf (getCell g x y).owner)))) ∧
    ((getCell g x y).is_city = false → (getCell g x y).in_zone = false →
      getCell (shade_city_and_zone g) x y = getCell g x y) := by
  refine ⟨by decide, ?_, ?_, ?_⟩
  · intro hcity
    rw [getCell_shade_city_and_zone g x y hy hx]
    unfold shadeCellOwnership
    rw [if_pos hcity]
  · intro hcity hzone
    constructor
    · intro hborder
      rw [getCell_shade_city_and_zone g x y hy hx]
      unfold shadeCellOwnership
      rw [if_neg (by simp [hcity]), if_pos hzone, if_pos hborder]
    · intro hborder
      rw [getCell_shade_city_and_zone g x y hy hx]
      unfold shadeCellOwnership
      rw [if_neg (by simp [hcity]), if_pos hzone, if_neg (by rw [hborder]; simp)]
  · intro hcity hzone
    rw [getCell_shade_city_and_zone g x y hy hx]
    unfold shadeCellOwnership
    rw [if_neg (by simp [hcity]), if_neg (by simp [hzone])]

/-- Witness for C7: the unowned, non-city cell at the origin of the concrete
2×2 earth grid is untouched by the ownership pass. -/
theorem c7_ownership_shading_witness :
    getCell (shade_city_and_zone exGrid22) 0 0 = getCell exGrid22 0 0 :=
  (c7_ownership_shading exGrid22 0 0 (by decide) (by decide)).2.2.2 (by decide) (by decide)

/-! ## Combat-resolver lemmas -/

theorem randomFloat_nonneg (r : Rng) : 0 ≤ (randomFloat r).1 := by
  simp only [randomFloat, Rng.next]
  positivity

theorem evalCapture_water (g : Grid) (c : Cell) (r : Rng)
    (ht : c.terrain = "water") (hcity : c.is_city = false) :
    (evalCapture g c r).1 = false := by
  unfold evalCapture
  rw [if_neg (by simp [ht]), if_neg (by simp [ht]), if_pos ⟨ht, hcity⟩]
  simp [decide_eq_false (not_lt.mpr (randomFloat_nonneg r))]

theorem scanAttack_eq (g : Grid) (c : Cell) (ps : List (Int × Int)) (r : Rng) :
    scanAttack g c ps r =
      if ps.any (fun p => qualifies g p.1 p.2) then evalCapture g c r else (false, r) := by
  induction ps with
  | nil => rfl
  | cons p ps ih =>
    obtain ⟨nx, ny⟩ := p
    by_cases hq : qualifies g nx ny
    · simp [scanAttack, hq]
    · have hq' : qualifies g nx ny = false := by simpa using hq
      simp only [scanAttack, hq', Bool.false_eq_true, if_false]
      rw [ih]
      simp only [List.any_cons]
      by_cases hB : (ps.any fun p => qualifies g p.1 p.2) = true
      · rw [if_pos hB, if_pos (by simp only [hq', Bool.false_or]; exact hB)]
      · rw [if_neg hB, if_neg (by simp only [hq', Bool.false_or]; exact hB)]

theorem scanAttack_water (g : Grid) (c : Cell) (ps : List (Int × Int)) (r : Rng)
    (ht : c.terrain = "water") (hcity : c.is_city = false) :
    (scanAttack g c ps r).1 = false := by
  rw [scanAttack_eq]
  by_cases h : ps.any (fun p => qualifies g p.1 p.2)
  · rw [if_pos h]
    exact evalCapture_water g c r ht hcity
  · rw [if_neg h]

theorem mem_collectAttackable (g : Grid) (t : Option Nat) :
    ∀ (cells : List Cell) (r : Rng) (c : Cell), c ∈ (collectAttackable g t cells r).1 →
      c ∈ cells ∧ c.owner = t ∧
        ((probeOffsets c).any (fun p => qualifies g p.1 p.2)) = true ∧
        ¬(c.terrain = "water" ∧ c.is_city = false) := by
  intro cells
  induction cells with
  | nil => intro r c hc; exact absurd hc (List.not_mem_nil _)
  | cons c0 cs ih =>
    intro r c hc
    unfold collectAttackable at hc
    by_cases hown : c0.owner = t
    · rw [if_pos hown] at hc
      rcases List.mem_append.mp hc with hc1 | hc2
      · by_cases hcap : (scanAttack g c0 (probeOffsets c0) r).1
        · simp only [hcap, if_pos] at hc1
          rcases List.mem_singleton.mp hc1 with rfl
          refine ⟨List.mem_cons_self _ _, hown, ?_, ?_⟩
          · by_contra hq
            rw [scanAttack_eq, if_neg (by simpa using hq)] at hcap
            exact Bool.false_ne_true hcap
          · rintro ⟨ht, hcity⟩
            rw [scanAttack_water g c (probeOffsets c) r ht hcity] at hcap
            exact Bool.false_ne_true hcap
        · simp only [Bool.not_eq_true] at hcap
          simp [hcap] at hc1
      · obtain ⟨h1, h2⟩ := ih _ c hc2
        exact ⟨List.mem_cons_of_mem _ h1, h2⟩
    · rw [if_neg hown] at hc
      obtain ⟨h1, h2⟩ := ih _ c hc
      exact ⟨List.mem_cons_of_mem _ h1, h2⟩

theorem length_applyCaptures (l : List Cell) : ∀ g : Grid,
    (applyCaptures g l).length = g.length := by
  induction l with
  | nil => intro g; rfl
  | cons c cs ih =>
    intro g
    show (applyCaptures (updateAt g c.x c.y captureCell) cs).length = g.length
    rw [ih, length_updateAt]

theorem rowLen_applyCaptures (l : List Cell) : ∀ (g : Grid) (y : Nat),
    ((applyCaptures g l).getD y []).length = (g.getD y []).length := by
  induction l with
  | nil => intro g y; rfl
  | cons c cs ih =>
    intro g y
    show ((applyCaptures (updateAt g c.x c.y captureCell) cs).getD y []).length =
      (g.getD y []).length
    rw [ih, rowLen_updateAt]

theorem applyCaptures_untouched (l : List Cell) : ∀ (g : Grid) (x y : Nat),
    (∀ c ∈ l, ¬(c.x = x ∧ c.y = y)) →
    getCell (applyCaptures g l) x y = getCell g x y := by
  induction l with
  | nil => intro g x y _; rfl
  | cons c cs ih =>
    intro g x y hne
    show getCell (applyCaptures (updateAt g c.x c.y captureCell) cs) x y = getCell g x y
    rw [ih _ _ _ (fun c' hc' => hne c' (List.mem_cons_of_mem _ hc')),
      getCell_updateAt_ne _ _ _ _ _ _ (hne c (List.mem_cons_self _ _))]

/-- Embeds `captureCell` output always carries the capture marks, so once a position
is captured it stays captured through the rest of the sweep. -/
theorem applyCaptures_keeps_captured (l : List Cell) : ∀ (g : Grid) (x y : Nat),
    (getCell g x y).owner = some 1 → (getCell g x y).in_zone = true →
    (getCell (applyCaptures g l) x y).owner = some 1 ∧
      (getCell (applyCaptures g l) x y).in_zone = true := by
  induction l with
  | nil => intro g x y h1 h2; exact ⟨h1, h2⟩
  | cons c cs ih =>
    intro g x y h1 h2
    show (getCell (applyCaptures (updateAt g c.x c.y captureCell) cs) x y).owner = some 1 ∧ _
    refine ih _ _ _ ?_ ?_ <;>
      · rw [getCell_updateAt]
        split_ifs <;> simp [captureCell, h1, h2]

theorem applyCaptures_captures (l : List Cell) : ∀ (g : Grid),
    (∀ c ∈ l, c.y < g.length ∧ c.x < (g.getD c.y []).length) →
    ∀ c ∈ l, (getCell (applyCaptures g l) c.x c.y).owner = some 1 ∧
      (getCell (applyCaptures g l) c.x c.y).in_zone = true := by
  induction l with
  | nil => intro g _ c hc; exact absurd hc (List.not_mem_nil _)
  | cons c0 cs ih =>
    intro g hb c hc
    show (getCell (applyCaptures (updateAt g c0.x c0.y captureCell) cs) c.x c.y).owner =
      some 1 ∧ _
    have hb0 := hb c0 (List.mem_cons_self _ _)
    rcases List.mem_cons.mp hc with rfl | hcs
    · apply applyCaptures_keeps_captured <;>
        rw [getCell_updateAt_same _ _ _ _ hb0.1 hb0.2] <;> rfl
    · exact ih _ (fun c' hc' => by
        rw [length_updateAt, rowLen_updateAt]
        exact hb c' (List.mem_cons_of_mem _ hc')) c hcs

/-- The result grid of `launch_attack`: untouched when no cell qualified,
otherwise the capture sweep followed by the ownership re-shade. -/
theorem launch_attack_eq (g : Grid) (t : Option Nat) (r : Rng) :
    (launch_attack g t r).1 =
      if (attackableCells g t r).1 = [] then g
      else shade_city_and_zone (applyCaptures g (attackableCells g t r).1) := by
  unfold launch_attack
  by_cases h : (attackableCells g t r).1 = []
  · simp [h]
  · rw [if_neg h]
    have hlen : ¬(attackableCells g t r).1.length = 0 := by
      simpa [List.length_eq_zero] using h
    simp only [hlen, if_false]

/-- Example combat grid: an earth defender owned by player 2 at the origin
with a qualifying player-1 zone neighbor to its right. -/
def exAttacker : Cell :=
  { x := 1, y := 0, terrain := "earth", owner := some 1, is_city := false,
    in_zone := true, display_color := (60, 160, 80) }

def exDefender : Cell :=
  { x := 0, y := 0, terrain := "earth", owner := some 2, is_city := false,
    in_zone := true, display_color := (60, 160, 80) }

def exAttackGrid : Grid := [[exDefender, exAttacker]]

/-- Example combat grid with a water defender instead. -/
def exWaterDefender : Cell :=
  { x := 0, y := 0, terrain := "water", owner := some 2, is_city := false,
    in_zone := true, display_color := (60, 100, 200) }

def exWaterAttackGrid : Grid := [[exWaterDefender, exAttacker]]

/-- Claim C3: In `launch_attack`: every collected cell is owned by the defender
and has a qualifying orthogonal distance-1 neighbor (owned by the attacker and
in a zone); the neighbor scan stops at the first qualifying neighbor, so the
capture decision is a single terrain-branch evaluation gated on the existence
of such a neighbor; every collected cell is captured in the same resolution
step (`owner := 1`, `in_zone := true`); and the grid is re-shaded if and only
if at least one cell was collected, being left untouched otherwise. -/
theorem c3_attack_resolution (g : Grid) (t : Option Nat) (r : Rng) (wf : WFGrid g) :
    (∀ c ∈ (attackableCells g t r).1, c.owner = t ∧
      ((probeOffsets c).any (fun p => qualifies g p.1 p.2)) = true) ∧
    (∀ (cell : Cell) (ps : List (Int × Int)) (r' : Rng),
      scanAttack g cell ps r' =
        if ps.any (fun p => qualifies g p.1 p.2) then evalCapture g cell r'
        else (false, r')) ∧
    ((launch_attack g t r).1 =
      if (attackableCells g t r).1 = [] then g
      else shade_city_and_zone (applyCaptures g (attackableCells g t r).1)) ∧
    (∀ c ∈ (attackableCells g t r).1,
      (getCell (applyCaptures g (attackableCells g t r).1) c.x c.y).owner = some 1 ∧
      (getCell (applyCaptures g (attackableCells g t r).1) c.x c.y).in_zone = true) := by
  have hmem : ∀ c ∈ (attackableCells g t r).1,
      c.y < g.length ∧ c.x < (g.getD c.y []).length := by
    intro c hc
    obtain ⟨hflat, _⟩ := mem_collectAttackable g t (g.flatMap id) r c hc
    obtain ⟨row, hrow, hcrow⟩ := List.mem_flatMap.mp hflat
    obtain ⟨h1, h2, _⟩ := mem_grid_getCell wf hrow hcrow
    exact ⟨h1, by rw [wf.1 c.y h1]; exact h2⟩
  refine ⟨?_, ?_, launch_attack_eq g t r, applyCaptures_captures _ g hmem⟩
  · intro c hc
    obtain ⟨_, h2, h3, _⟩ := mem_collectAttackable g t (g.flatMap id) r c hc
    exact ⟨h2, h3⟩
  · intro cell ps r'
    exact scanAttack_eq g cell ps r'

/-- Witness for C3: on the concrete two-cell grid the attack result is the
re-shaded capture sweep of the collected cells (well-formedness discharged by
`decide`). -/
theorem c3_attack_resolution_witness :
    (launch_attack exAttackGrid (some 2) zeroRng).1 =
      if (attackableCells exAttackGrid (some 2) zeroRng).1 = [] then exAttackGrid
      else shade_city_and_zone
        (applyCaptures exAttackGrid (attackableCells exAttackGrid (some 2) zeroRng).1) :=
  (c3_attack_resolution exAttackGrid (some 2) zeroRng (by decide)).2.2.1

/-- Claim C5: A combat step never captures a non-city water cell: after
`launch_attack`, every defender-owned water non-city cell keeps its pre-call
`owner` and `in_zone` values (its capture probability is fixed at 0 and
`random.random()` is never below 0), even when a qualifying attacker neighbor
exists. -/
theorem c5_water_never_captured (g : Grid) (t : Option Nat) (r : Rng) (wf : WFGrid g)
    (x y : Nat) (hy : y < g.length) (hx : x < (g.getD y []).length)
    (howner : (getCell g x y).owner = t)
    (ht : (getCell g x y).terrain = "water") (hcity : (getCell g x y).is_city = false) :
    (getCell (launch_attack g t r).1 x y).owner = (getCell g x y).owner ∧
    (getCell (launch_attack g t r).1 x y).in_zone = (getCell g x y).in_zone := by
  have hnotmem : ∀ c ∈ (attackableCells g t r).1, ¬(c.x = x ∧ c.y = y) := by
    rintro c hc ⟨hx1, hy1⟩
    obtain ⟨hflat, _, _, hnw⟩ := mem_collectAttackable g t (g.flatMap id) r c hc
    obtain ⟨row, hrow, hcrow⟩ := List.mem_flatMap.mp hflat
    obtain ⟨_, _, hgc⟩ := mem_grid_getCell wf hrow hcrow
    rw [hx1, hy1] at hgc
    rw [hgc] at ht hcity
    exact hnw ⟨ht, hcity⟩
  rw [launch_attack_eq]
  by_cases hA : (attackableCells g t r).1 = []
  · rw [if_pos hA]
    exact ⟨rfl, rfl⟩
  · rw [if_neg hA]
    have hunch : getCell (applyCaptures g (attackableCells g t r).1) x y = getCell g x y :=
      applyCaptures_untouched _ g x y hnotmem
    have hy' : y < (applyCaptures g (attackableCells g t r).1).length := by
      rw [length_applyCaptures]; exact hy
    have hx' : x < ((applyCaptures g (attackableCells g t r).1).getD y []).length := by
      rw [rowLen_applyCaptures]; exact hx
    rw [getCell_shade_city_and_zone _ x y hy' hx', hunch]
    have hf := shadeCellOwnership_fields (applyCaptures g (attackableCells g t r).1)
      (getCell g x y)
    exact ⟨hf.2.2.2.1, hf.2.2.2.2.2⟩

/-- Witness for C5: the water defender of the concrete two-cell grid, which
does have a qualifying attacker neighbor, is untouched by the attack. -/
theorem c5_water_never_captured_witness :
    (getCell (launch_attack exWaterAttackGrid (some 2) zeroRng).1 0 0).owner =
      (getCell exWaterAttackGrid 0 0).owner ∧
    (getCell (launch_attack exWaterAttackGrid (some 2) zeroRng).1 0 0).in_zone =
      (getCell exWaterAttackGrid 0 0).in_zone :=
  c5_water_never_captured exWaterAttackGrid (some 2) zeroRng (by decide) 0 0
    (by decide) (by decide) (by decide) (by decide) (by decide)

/-! ## C6 — capture probabilities -/

theorem orthogonal_neighbors_length_le (g : Grid) (x y d : Nat) :
    (orthogonal_neighbors g x y d).length ≤ 4 * d := by
  unfold orthogonal_neighbors
  refine le_trans (List.length_filterMap_le _ _) ?_
  rw [List.length_flatMap]
  have h4 : (List.map (List.length ∘ fun (i : Nat) =>
      let d : Int := (i : Int) + 1
      ([(-d, 0), (d, 0), (0, -d), (0, d)] : List (Int × Int))) (List.range d)) =
      List.replicate d 4 := by
    refine List.eq_replicate_iff.mpr ⟨by simp, ?_⟩
    intro b hb
    obtain ⟨i, _, rfl⟩ := List.mem_map.mp hb
    rfl
  rw [h4, List.sum_replicate, smul_eq_mul, Nat.mul_comm]

theorem ownedCount_le_8 (g : Grid) (x y : Nat) : ownedCount g x y 2 ≤ 8 :=
  le_trans (List.length_filter_le _ _) (orthogonal_neighbors_length_le g x y 2)

/-- Counterexample for C6 as stated: the computed capture probability can
never exceed 1 — the distance-2 orthogonal neighbor count is at most 8, so
`0.02 * owned_near` is at most `0.16`. -/
theorem c6_counterexample :
    ¬ ∃ (g : Grid) (x y : Nat), 1 < (2 / 100 : ℚ) * (ownedCount g x y 2 : ℚ) := by
  rintro ⟨g, x, y, h⟩
  have hle : (ownedCount g x y 2 : ℚ) ≤ 8 := by
    exact_mod_cast ownedCount_le_8 g x y
  nlinarith

/-- Claim C6, amended: A non-city mountain defender cell is capturable exactly
when the drawn uniform is below `0.02 × owned_near` and a distance-1
attacker-owned orthogonal neighbor exists; a city cell likewise with
`0.01 × owned_near`; the formula carries no clamp, but `owned_near` (the
count of attacker-owned orthogonal neighbors up to distance 2) is at most 8,
so the computed probability never exceeds `0.16` — in particular it can
never exceed 1. -/
theorem c6_capture_probability (g : Grid) (cell : Cell) (r : Rng) :
    (cell.terrain = "mountain" → cell.is_city = false →
      evalCapture g cell r =
        (decide ((randomFloat r).1 < (2 / 100 : ℚ) * (ownedCount g cell.x cell.y 2 : ℚ)) &&
          decide (0 < ownedCount g cell.x cell.y 1), (randomFloat r).2)) ∧
    (cell.is_city = true →
      evalCapture g cell r =
        (decide ((randomFloat r).1 < (1 / 100 : ℚ) * (ownedCount g cell.x cell.y 2 : ℚ)) &&
          decide (0 < ownedCount g cell.x cell.y 1), (randomFloat r).2)) ∧
    ((2 / 100 : ℚ) * (ownedCount g cell.x cell.y 2 : ℚ) ≤ 16 / 100 ∧
      (1 / 100 : ℚ) * (ownedCount g cell.x cell.y 2 : ℚ) ≤ 8 / 100) := by
  have hle : (ownedCount g cell.x cell.y 2 : ℚ) ≤ 8 := by
    exact_mod_cast ownedCount_le_8 g cell.x cell.y
  refine ⟨?_, ?_, by nlinarith, by nlinarith⟩
  · intro ht hcity
    unfold evalCapture ownedCount
    rw [if_neg (by simp [ht]), if_pos ⟨ht, hcity⟩]
  · intro hcity
    unfold evalCapture ownedCount
    rw [if_neg (by simp [hcity]), if_neg (by simp [hcity]), if_neg (by simp [hcity]),
      if_pos hcity]

/-- Witness for C6 (amended): the mountain-branch formula instantiated on a
concrete cell of the two-cell grid. -/
theorem c6_capture_probability_witness :
    evalCapture exAttackGrid (mkCell 0 0 "mountain" (some 2) false) zeroRng =
      (decide ((randomFloat zeroRng).1 <
          (2 / 100 : ℚ) * (ownedCount exAttackGrid 0 0 2 : ℚ)) &&
        decide (0 < ownedCount exAttackGrid 0 0 1), (randomFloat zeroRng).2) :=
  (c6_capture_probability exAttackGrid (mkCell 0 0 "mountain" (some 2) false) zeroRng).1
    rfl rfl

/-! ## C2 — bounded placement attempts -/

theorem randChoice_mem {α : Type} [Inhabited α] (l : List α) (r : Rng) (h : l ≠ []) :
    (randChoice l r).1 ∈ l := by
  have hlt : (r.next.1 % l.length) < l.length :=
    Nat.mod_lt _ (List.length_pos.mpr h)
  show (l.getD (r.next.1 % l.length) default) ∈ l
  rw [List.getD_eq_getElem?_getD, List.getElem?_eq_getElem hlt]
  exact List.getElem_mem hlt

theorem addCityAttempts_spec (g : Grid) (n p : Nat) (ec : List Cell) (hec : ec ≠ []) :
    ∀ (fuel : Nat) (r : Rng),
      ((addCityAttempts g n p ec fuel r).attempts ≤ fuel) ∧
      (∀ e, (addCityAttempts g n p ec fuel r).res = .error e →
        (addCityAttempts g n p ec fuel r).grid = g ∧ e = exhaustMsg p ∧
        (addCityAttempts g n p ec fuel r).attempts = fuel) ∧
      (∀ c, (addCityAttempts g n p ec fuel r).res = .ok c →
        ∃ (city : Cell) (zone : List Cell) (r₁ : Rng),
          city ∈ ec ∧ (compute_zone g city n r₁).1 = some zone ∧ zone ≠ [] ∧
          c = setCityCell p city ∧
          (addCityAttempts g n p ec fuel r).grid = applyZone g city zone p) := by
  intro fuel
  induction fuel with
  | zero =>
    intro r
    refine ⟨Nat.le_refl 0, fun e he => ⟨rfl, ?_, rfl⟩, fun c hc => ?_⟩
    · injection he with he
      exact he.symm
    · exact absurd hc (by intro h; injection h)
  | succ fuel ih =>
    intro r
    have hstep : addCityAttempts g n p ec (fuel + 1) r =
        (if zoneTruthy (compute_zone g (randChoice ec r).1 n (randChoice ec r).2).1 then
          ⟨.ok (setCityCell p (randChoice ec r).1),
            applyZone g (randChoice ec r).1
              ((compute_zone g (randChoice ec r).1 n (randChoice ec r).2).1.getD []) p,
            (compute_zone g (randChoice ec r).1 n (randChoice ec r).2).2, 1⟩
        else
          let rest := addCityAttempts g n p ec fuel
            (compute_zone g (randChoice ec r).1 n (randChoice ec r).2).2
          ⟨rest.res, rest.grid, rest.rng, rest.attempts + 1⟩) := rfl
    rw [hstep]
    set city := (randChoice ec r).1 with hcity
    set r₁ := (randChoice ec r).2 with hr₁
    set zres := (compute_zone g city n r₁).1 with hzres
    set r₂ := (compute_zone g city n r₁).2 with hr₂
    by_cases htr : zoneTruthy zres
    · rw [if_pos htr]
      refine ⟨Nat.le_add_left 1 fuel, fun e he => absurd he (by intro h; injection h),
        fun c hc => ?_⟩
      have hzs : ∃ zs, zres = some zs ∧ zs ≠ [] := by
        cases hz : zres with
        | none => rw [hz] at htr; simp [zoneTruthy] at htr
        | some zs =>
          rw [hz] at htr
          simp only [zoneTruthy] at htr
          exact ⟨zs, rfl, by simpa [List.length_eq_zero] using htr⟩
      obtain ⟨zs, hzs1, hzs2⟩ := hzs
      refine ⟨city, zres.getD [], r₁, randChoice_mem ec r hec, ?_, ?_, ?_, rfl⟩
      · rw [← hzres, hzs1]
        rfl
      · rw [hzs1]
        exact hzs2
      · injection hc with hc
        exact hc.symm
    · rw [if_neg htr]
      obtain ⟨ih1, ih2, ih3⟩ := ih r₂
      refine ⟨by simpa using Nat.add_le_add_right ih1 1, fun e he => ?_, fun c hc => ?_⟩
      · obtain ⟨h1, h2, h3⟩ := ih2 e he
        exact ⟨h1, h2, by simp [h3]⟩
      · exact ih3 c hc

/-- A 1×1 all-earth grid: any zone request of size ≥ 1 must fail on it. -/
def exGrid11 : Grid := [[exEarth 0 0]]

/-- Claim C2: `add_city_with_zone` makes at most 100 placement attempts; on any
raised error the caller's grid is exactly the input grid (no owner, city or
zone field was mutated by the failed attempts); when earth candidates exist
and the placement-exhaustion error is raised, exactly 100 attempts were made;
and on success the final grid is the input grid with only the single
successful attempt's city-and-zone stamp applied. -/
theorem c2_placement_exhaustion (g : Grid) (n p : Nat) (r : Rng) :
    ((add_city_with_zone g n p r).attempts ≤ 100) ∧
    (∀ e, (add_city_with_zone g n p r).res = .error e →
      (add_city_with_zone g n p r).grid = g) ∧
    (earthCells g ≠ [] → (add_city_with_zone g n p r).res = .error (exhaustMsg p) →
      (add_city_with_zone g n p r).attempts = 100) ∧
    (∀ c, (add_city_with_zone g n p r).res = .ok c →
      ∃ (city : Cell) (zone : List Cell) (r₁ : Rng),
        city ∈ earthCells g ∧ (compute_zone g city n r₁).1 = some zone ∧ zone ≠ [] ∧
        (add_city_with_zone g n p r).grid = applyZone g city zone p) := by
  unfold add_city_with_zone
  by_cases hec : (earthCells g).length = 0
  · rw [if_pos hec]
    refine ⟨Nat.zero_le _, fun e _ => rfl, fun hne _ => ?_, fun c hc => ?_⟩
    · exact absurd (List.length_eq_zero.mp hec) hne
    · exact absurd hc (by intro h; injection h)
  · rw [if_neg hec]
    have hne : earthCells g ≠ [] := by
      intro h
      exact hec (by rw [h]; rfl)
    obtain ⟨h1, h2, h3⟩ := addCityAttempts_spec g n p (earthCells g) hne 100 r
    refine ⟨h1, fun e he => (h2 e he).1, fun _ he => (h2 _ he).2.2, fun c hc => ?_⟩
    obtain ⟨city, zone, r₁, hm, hz, hzne, _, hgr⟩ := h3 c hc
    exact ⟨city, zone, r₁, hm, hz, hzne, hgr⟩


/-- On the 1×1 earth grid every attempt fails (the BFS frontier is empty and
the seed is never counted), independently of the stream, so all the fuel is
consumed and the exhaustion error is raised. -/
theorem exGrid11_all_attempts_fail : ∀ (fuel : Nat) (r : Rng),
    (addCityAttempts exGrid11 1 1 (earthCells exGrid11) fuel r).res =
      .error (exhaustMsg 1) ∧
    (addCityAttempts exGrid11 1 1 (earthCells exGrid11) fuel r).attempts = fuel := by
  intro fuel
  induction fuel with
  | zero => exact fun r => ⟨rfl, rfl⟩
  | succ fuel ih =>
    intro r
    have hchoice : (randChoice (earthCells exGrid11) r).1 = exEarth 0 0 := by
      show ((earthCells exGrid11).getD (r.next.1 % (earthCells exGrid11).length) default) =
        exEarth 0 0
      have hlen : (earthCells exGrid11).length = 1 := rfl
      rw [hlen, Nat.mod_one]
      rfl
    have hzone : ∀ r' : Rng, (compute_zone exGrid11 (exEarth 0 0) 1 r') = (none, r') :=
      fun r' => rfl
    have hstep : addCityAttempts exGrid11 1 1 (earthCells exGrid11) (fuel + 1) r =
        (if zoneTruthy (compute_zone exGrid11 (randChoice (earthCells exGrid11) r).1 1
            (randChoice (earthCells exGrid11) r).2).1 then
          ⟨.ok (setCityCell 1 (randChoice (earthCells exGrid11) r).1),
            applyZone exGrid11 (randChoice (earthCells exGrid11) r).1
              ((compute_zone exGrid11 (randChoice (earthCells exGrid11) r).1 1
                (randChoice (earthCells exGrid11) r).2).1.getD []) 1,
            (compute_zone exGrid11 (randChoice (earthCells exGrid11) r).1 1
              (randChoice (earthCells exGrid11) r).2).2, 1⟩
        else
          let rest := addCityAttempts exGrid11 1 1 (earthCells exGrid11) fuel
            (compute_zone exGrid11 (randChoice (earthCells exGrid11) r).1 1
              (randChoice (earthCells exGrid11) r).2).2
          ⟨rest.res, rest.grid, rest.rng, rest.attempts + 1⟩) := rfl
    rw [hstep, hchoice, hzone]
    obtain ⟨ih1, ih2⟩ := ih (randChoice (earthCells exGrid11) r).2
    exact ⟨ih1, by simpa using congrArg (· + 1) ih2⟩

/-- Witness for C2: on the 1×1 earth grid the call makes exactly 100 attempts,
raises the exhaustion error, and hands the grid back untouched. -/
theorem c2_placement_exhaustion_witness :
    (add_city_with_zone exGrid11 1 1 zeroRng).attempts ≤ 100 ∧
    (add_city_with_zone exGrid11 1 1 zeroRng).grid = exGrid11 ∧
    (add_city_with_zone exGrid11 1 1 zeroRng).attempts = 100 :=
  ⟨(c2_placement_exhaustion exGrid11 1 1 zeroRng).1,
   (c2_placement_exhaustion exGrid11 1 1 zeroRng).2.1 (exhaustMsg 1)
     ((exGrid11_all_attempts_fail 100 zeroRng).1),
   (c2_placement_exhaustion exGrid11 1 1 zeroRng).2.2.1 (by decide)
     ((exGrid11_all_attempts_fail 100 zeroRng).1)⟩

/-! ## C1 — zone-generator correctness -/

/-- A cell value that genuinely sits in the grid at its stored coordinates. -/
def inGridCell (g : Grid) (c : Cell) : Prop :=
  c.y < g.length ∧ c.x < (g.getD c.y []).length ∧ getCell g c.x c.y = c

theorem ReachableVia.mono {zone zone' : List Cell} {city c : Cell}
    (hsub : ∀ a ∈ zone, a ∈ zone') (h : ReachableVia zone city c) :
    ReachableVia zone' city c := by
  induction h with
  | refl => exact .refl
  | step _ h2 h3 ih => exact .step ih (hsub _ h2) h3

theorem randShuffleAux_mem {α : Type} [DecidableEq α] :
    ∀ (fuel : Nat) (l : List α) (r : Rng), ∀ a ∈ (randShuffleAux fuel l r).1, a ∈ l := by
  intro fuel
  induction fuel with
  | zero => intro l r a ha; exact absurd ha (List.not_mem_nil _)
  | succ fuel ih =>
    intro l r a ha
    match l with
    | [] => exact absurd ha (List.not_mem_nil _)
    | x :: xs =>
      have hlen : 0 < (x :: xs).length := Nat.succ_pos _
      have hsel : (x :: xs).getD (r.next.1 % (x :: xs).length) x ∈ x :: xs := by
        have hlt : r.next.1 % (x :: xs).length < (x :: xs).length := Nat.mod_lt _ hlen
        rw [List.getD_eq_getElem?_getD, List.getElem?_eq_getElem hlt]
        exact List.getElem_mem hlt
      rcases List.mem_cons.mp ha with rfl | hrest
      · exact hsel
      · exact List.erase_subset _ _ (ih _ _ a hrest)

theorem randShuffle_mem {α : Type} [DecidableEq α] (l : List α) (r : Rng) :
    ∀ a ∈ (randShuffle l r).1, a ∈ l :=
  randShuffleAux_mem l.length l r

/-- Any cell returned by `orthogonal_neighbors` at distance 1 on a well-formed
grid is a genuine grid cell orthogonally adjacent to the query position. -/
theorem orthNeighbor_adjacent (g : Grid) (wf : WFGrid g) (c : Cell) (n : Cell)
    (hn : n ∈ orthogonal_neighbors g c.x c.y 1) : adjacent c n ∧ inGridCell g n := by
  unfold orthogonal_neighbors at hn
  obtain ⟨p, hp, hfn⟩ := List.mem_filterMap.mp hn
  have hr1 : List.range 1 = [0] := rfl
  rw [hr1] at hp
  simp only [List.flatMap_cons, List.flatMap_nil, List.append_nil, List.mem_cons,
    List.not_mem_nil, or_false] at hp
  by_cases hb : inBoundsI g ((c.x : Int) + p.1) ((c.y : Int) + p.2)
  case neg =>
    rw [if_neg hb] at hfn
    exact absurd hfn (by intro h; injection h)
  case pos =>
  rw [if_pos hb] at hfn
  have hgetn : getCell g ((c.x : Int) + p.1).toNat ((c.y : Int) + p.2).toNat = n := by
    injection hfn with h
  obtain ⟨hb1, hb2, hb3, hb4⟩ := hb
  have hyh : ((c.y : Int) + p.2).toNat < gridH g := by omega
  have hxw : ((c.x : Int) + p.1).toNat < gridW g := by omega
  have hco := wf.2 _ hyh _ hxw
  rw [hgetn] at hco
  have hnin : inGridCell g n := by
    refine ⟨?_, ?_, ?_⟩
    · rw [hco.2]
      exact hyh
    · rw [hco.1, hco.2, wf.1 _ hyh]
      exact hxw
    · rw [hco.1, hco.2]
      exact hgetn
  refine ⟨?_, hnin⟩
  unfold adjacent
  rcases hp with rfl | rfl | rfl | rfl <;>
    · simp only at hco hb1 hb2 hb3 hb4
      omega

/-- What the push loop of `compute_zone` does: the queue only grows by fresh
(unvisited), unowned earth neighbors, and the visited set only grows. -/
theorem pushNeighbors_spec : ∀ (ns : List Cell) (visited : List (Nat × Nat))
    (queue : List Cell),
    (∀ q ∈ (pushNeighbors ns visited queue).2,
      q ∈ queue ∨ (q ∈ ns ∧ q.terrain = "earth" ∧ q.owner = none ∧
        (q.x, q.y) ∉ visited)) ∧
    (∀ v ∈ visited, v ∈ (pushNeighbors ns visited queue).1) := by
  intro ns
  induction ns with
  | nil => exact fun visited queue => ⟨fun q hq => Or.inl hq, fun v hv => hv⟩
  | cons n ns ih =>
    intro visited queue
    by_cases hskip : (n.x, n.y) ∈ visited ∨ n.terrain ≠ "earth" ∨ n.owner ≠ none
    · have hstep : pushNeighbors (n :: ns) visited queue =
          pushNeighbors ns visited queue := by
        simp only [pushNeighbors]
        rw [if_pos hskip]
      rw [hstep]
      obtain ⟨ih1, ih2⟩ := ih visited queue
      refine ⟨fun q hq => ?_, ih2⟩
      rcases ih1 q hq with h | ⟨h1, h2⟩
      · exact Or.inl h
      · exact Or.inr ⟨List.mem_cons_of_mem _ h1, h2⟩
    · have hstep : pushNeighbors (n :: ns) visited queue =
          pushNeighbors ns (visited ++ [(n.x, n.y)]) (queue ++ [n]) := by
        simp only [pushNeighbors]
        rw [if_neg hskip]
      push_neg at hskip
      obtain ⟨hv, ht, ho⟩ := hskip
      rw [hstep]
      obtain ⟨ih1, ih2⟩ := ih (visited ++ [(n.x, n.y)]) (queue ++ [n])
      refine ⟨fun q hq => ?_, fun v hv' => ih2 v (List.mem_append_left _ hv')⟩
      rcases ih1 q hq with h | ⟨h1, h2, h3, h4⟩
      · rcases List.mem_append.mp h with h' | h'
        · exact Or.inl h'
        · rcases List.mem_singleton.mp h' with rfl
          exact Or.inr ⟨List.mem_cons_self _ _, ht, ho, hv⟩
      · refine Or.inr ⟨List.mem_cons_of_mem _ h1, h2, h3, fun hc => h4 ?_⟩
        exact List.mem_append_left _ hc

/-- The loop invariant of `compute_zone`'s BFS: queue cells are genuine grid
cells that are the city or fresh earth cells one step from something already
reachable; collected zone cells are non-seed earth grid cells reachable from
the city through the zone; the zone never exceeds the request; the city's
position is marked visited. -/
structure ZoneInv (g : Grid) (city : Cell) (maxCells : Nat)
    (queue : List Cell) (visited : List (Nat × Nat)) (zone : List Cell) : Prop where
  queue_grid : ∀ q ∈ queue, inGridCell g q
  queue_ok : ∀ q ∈ queue, q = city ∨
    (q.terrain = "earth" ∧ q ≠ city ∧
      ∃ pc : Cell, ReachableVia zone city pc ∧ adjacent pc q)
  zone_ok : ∀ c ∈ zone, c ≠ city ∧ c.terrain = "earth" ∧ inGridCell g c ∧
    ReachableVia zone city c
  zone_le : zone.length ≤ maxCells
  visited_city : (city.x, city.y) ∈ visited

theorem zone_exit_spec (g : Grid) (city : Cell) (maxCells : Nat) (zone zs : List Cell)
    (hzok : ∀ c ∈ zone, c ≠ city ∧ c.terrain = "earth" ∧ inGridCell g c ∧
      ReachableVia zone city c)
    (hle : zone.length ≤ maxCells) (hnlt : ¬ zone.length < maxCells)
    (heq : zone = zs) :
    zs.length = maxCells ∧ ∀ c ∈ zs, c ≠ city ∧ c.terrain = "earth" ∧ inGridCell g c ∧
      ReachableVia zs city c := by
  subst heq
  exact ⟨Nat.le_antisymm hle (Nat.le_of_not_lt hnlt), hzok⟩

theorem computeZoneAux_spec (g : Grid) (city : Cell) (maxCells : Nat) (wf : WFGrid g)
    (hcity : inGridCell g city) :
    ∀ (fuel : Nat) (queue : List Cell) (visited : List (Nat × Nat)) (zone : List Cell)
      (r : Rng) (zs : List Cell) (r' : Rng),
      ZoneInv g city maxCells queue visited zone →
      computeZoneAux g city maxCells fuel queue visited zone r = (some zs, r') →
      zs.length = maxCells ∧
        ∀ c ∈ zs, c ≠ city ∧ c.terrain = "earth" ∧ inGridCell g c ∧
          ReachableVia zs city c := by
  intro fuel
  induction fuel with
  | zero =>
    intro queue visited zone r zs r' hinv heq
    cases queue with
    | nil =>
      simp only [computeZoneAux] at heq
      by_cases hlt : zone.length < maxCells
      · rw [if_pos hlt] at heq
        exact absurd (congrArg Prod.fst heq) (by simp)
      · rw [if_neg hlt] at heq
        exact zone_exit_spec g city maxCells zone zs hinv.zone_ok hinv.zone_le hlt
          (by simpa using congrArg Prod.fst heq)
    | cons current rest =>
      simp only [computeZoneAux] at heq
      by_cases hlt : zone.length < maxCells
      · rw [if_pos hlt] at heq
        exact absurd (congrArg Prod.fst heq) (by simp)
      · rw [if_neg hlt] at heq
        exact zone_exit_spec g city maxCells zone zs hinv.zone_ok hinv.zone_le hlt
          (by simpa using congrArg Prod.fst heq)
  | succ fuel ih =>
    intro queue visited zone r zs r' hinv heq
    cases queue with
    | nil =>
      simp only [computeZoneAux] at heq
      by_cases hlt : zone.length < maxCells
      · rw [if_pos hlt] at heq
        exact absurd (congrArg Prod.fst heq) (by simp)
      · rw [if_neg hlt] at heq
        exact zone_exit_spec g city maxCells zone zs hinv.zone_ok hinv.zone_le hlt
          (by simpa using congrArg Prod.fst heq)
    | cons current rest =>
      by_cases hlt : zone.length < maxCells
      case neg =>
        have hstep : computeZoneAux g city maxCells (fuel + 1) (current :: rest)
            visited zone r = (some zone, r) := by
          simp only [computeZoneAux]
          rw [if_neg hlt]
        rw [hstep] at heq
        exact zone_exit_spec g city maxCells zone zs hinv.zone_ok hinv.zone_le hlt
          (by simpa using congrArg Prod.fst heq)
      case pos =>
      have hstep : computeZoneAux g city maxCells (fuel + 1) (current :: rest)
          visited zone r =
          computeZoneAux g city maxCells fuel
            (pushNeighbors (randShuffle (orthogonal_neighbors g current.x current.y 1) r).1
              visited rest).2
            (pushNeighbors (randShuffle (orthogonal_neighbors g current.x current.y 1) r).1
              visited rest).1
            (if current ≠ city ∧ current.terrain = "earth" then zone ++ [current] else zone)
            (randShuffle (orthogonal_neighbors g current.x current.y 1) r).2 := by
        simp only [computeZoneAux]
        rw [if_pos hlt]
      rw [hstep] at heq
      set sh := (randShuffle (orthogonal_neighbors g current.x current.y 1) r).1 with hsh
      set pr := pushNeighbors sh visited rest with hpr
      set zone' := (if current ≠ city ∧ current.terrain = "earth"
        then zone ++ [current] else zone) with hzone'
      have hsub : ∀ a ∈ zone, a ∈ zone' := by
        rw [hzone']
        split_ifs
        · exact fun a ha => List.mem_append_left _ ha
        · exact fun a ha => ha
      have hcur_grid : inGridCell g current :=
        hinv.queue_grid current (List.mem_cons_self _ _)
      have hcur_ok := hinv.queue_ok current (List.mem_cons_self _ _)
      have hmemsh : ∀ q ∈ sh, adjacent current q ∧ inGridCell g q := by
        intro q hq
        exact orthNeighbor_adjacent g wf current q
          (randShuffle_mem (orthogonal_neighbors g current.x current.y 1) r q hq)
      have hreach : ReachableVia zone' city current := by
        rw [hzone']
        split_ifs with hcc
        · rcases hcur_ok with rfl | ⟨hearth, hne, pc, hrpc, hadj⟩
          · exact absurd rfl hcc.1
          · exact .step (hrpc.mono (fun a ha => List.mem_append_left _ ha))
              (List.mem_append_right _ (List.mem_singleton.mpr rfl)) hadj
        · rcases hcur_ok with rfl | ⟨hearth, hne, _⟩
          · exact .refl
          · exact absurd ⟨hne, hearth⟩ hcc
      have hpush := pushNeighbors_spec sh visited rest
      have hinv' : ZoneInv g city maxCells pr.2 pr.1 zone' := by
        refine ⟨?_, ?_, ?_, ?_, ?_⟩
        · intro q hq
          rcases hpush.1 q hq with h | ⟨h1, _⟩
          · exact hinv.queue_grid q (List.mem_cons_of_mem _ h)
          · exact (hmemsh q h1).2
        · intro q hq
          rcases hpush.1 q hq with h | ⟨h1, h2, _, h4⟩
          · rcases hinv.queue_ok q (List.mem_cons_of_mem _ h) with h' | ⟨e1, e2, pc, e3, e4⟩
            · exact Or.inl h'
            · exact Or.inr ⟨e1, e2, pc, e3.mono hsub, e4⟩
          · refine Or.inr ⟨h2, ?_, current, hreach, (hmemsh q h1).1⟩
            intro hqc
            apply h4
            rw [hqc]
            exact hinv.visited_city
        · intro c hc
          rw [hzone'] at hc ⊢
          split_ifs at hc ⊢ with hcc
          · rcases List.mem_append.mp hc with h | h
            · obtain ⟨e1, e2, e3, e4⟩ := hinv.zone_ok c h
              exact ⟨e1, e2, e3, e4.mono (fun a ha => List.mem_append_left _ ha)⟩
            · rcases List.mem_singleton.mp h with rfl
              refine ⟨hcc.1, hcc.2, hcur_grid, ?_⟩
              have := hreach
              rw [hzone'] at this
              rw [if_pos hcc] at this
              exact this
          · obtain ⟨e1, e2, e3, e4⟩ := hinv.zone_ok c hc
            exact ⟨e1, e2, e3, e4⟩
        · rw [hzone']
          split_ifs
          · rw [List.length_append, List.length_singleton]
            omega
          · exact hinv.zone_le
        · exact hpush.2 _ hinv.visited_city
      exact ih pr.2 pr.1 zone' _ zs r' hinv' heq

theorem compute_zone_spec (g : Grid) (city : Cell) (maxCells : Nat) (r : Rng)
    (wf : WFGrid g) (hcity : inGridCell g city) (zs : List Cell) (r' : Rng)
    (h : compute_zone g city maxCells r = (some zs, r')) :
    zs.length = maxCells ∧
      ∀ c ∈ zs, c ≠ city ∧ c.terrain = "earth" ∧ inGridCell g c ∧
        ReachableVia zs city c := by
  refine computeZoneAux_spec g city maxCells wf hcity _ _ _ _ _ _ _ ⟨?_, ?_, ?_, ?_, ?_⟩ h
  · intro q hq
    rcases List.mem_singleton.mp hq with rfl
    exact hcity
  · intro q hq
    rcases List.mem_singleton.mp hq with rfl
    exact Or.inl rfl
  · intro c hc
    exact absurd hc (List.not_mem_nil _)
  · exact Nat.zero_le _
  · exact List.mem_singleton.mpr rfl

/-! Generic lemmas about sweeps of positional updates. -/

theorem foldl_updateAt_length (f : Cell → Cell) (l : List Cell) : ∀ g : Grid,
    (l.foldl (fun acc c => updateAt acc c.x c.y f) g).length = g.length := by
  induction l with
  | nil => intro g; rfl
  | cons c cs ih =>
    intro g
    show (cs.foldl (fun acc c => updateAt acc c.x c.y f)
      (updateAt g c.x c.y f)).length = g.length
    rw [ih, length_updateAt]

theorem foldl_updateAt_rowLen (f : Cell → Cell) (l : List Cell) : ∀ (g : Grid) (y : Nat),
    ((l.foldl (fun acc c => updateAt acc c.x c.y f) g).getD y []).length =
      (g.getD y []).length := by
  induction l with
  | nil => intro g y; rfl
  | cons c cs ih =>
    intro g y
    show ((cs.foldl (fun acc c => updateAt acc c.x c.y f)
      (updateAt g c.x c.y f)).getD y []).length = (g.getD y []).length
    rw [ih, rowLen_updateAt]

theorem foldl_updateAt_keeps (f : Cell → Cell) (P : Cell → Prop)
    (hP : ∀ c, P c → P (f c)) (l : List Cell) : ∀ (g : Grid) (x y : Nat),
    P (getCell g x y) →
    P (getCell (l.foldl (fun acc c => updateAt acc c.x c.y f) g) x y) := by
  induction l with
  | nil => intro g x y h; exact h
  | cons c cs ih =>
    intro g x y h
    show P (getCell (cs.foldl (fun acc c => updateAt acc c.x c.y f)
      (updateAt g c.x c.y f)) x y)
    refine ih _ _ _ ?_
    rw [getCell_updateAt]
    split_ifs with hcond
    · exact hP _ (by
        obtain ⟨h1, h2, _⟩ := hcond
        rw [← h1, ← h2] at h
        exact h)
    · exact h

theorem foldl_updateAt_sets (f : Cell → Cell) (P : Cell → Prop)
    (hPf : ∀ c, P (f c)) (l : List Cell) : ∀ g : Grid,
    (∀ c ∈ l, c.y < g.length ∧ c.x < (g.getD c.y []).length) →
    ∀ c ∈ l, P (getCell (l.foldl (fun acc c => updateAt acc c.x c.y f) g) c.x c.y) := by
  induction l with
  | nil => intro g _ c hc; exact absurd hc (List.not_mem_nil _)
  | cons c0 cs ih =>
    intro g hb c hc
    show P (getCell (cs.foldl (fun acc c => updateAt acc c.x c.y f)
      (updateAt g c0.x c0.y f)) c.x c.y)
    have hb0 := hb c0 (List.mem_cons_self _ _)
    rcases List.mem_cons.mp hc with rfl | hcs
    · refine foldl_updateAt_keeps f P (fun d _ => hPf d) cs _ _ _ ?_
      rw [getCell_updateAt_same _ _ _ _ hb0.1 hb0.2]
      exact hPf _
    · refine ih _ (fun c' hc' => ?_) c hcs
      rw [length_updateAt, rowLen_updateAt]
      exact hb c' (List.mem_cons_of_mem _ hc')

theorem mem_earthCells (g : Grid) (c : Cell) (hc : c ∈ earthCells g) :
    c.terrain = "earth" ∧ c.owner = none ∧ ∃ row ∈ g, c ∈ row := by
  unfold earthCells at hc
  obtain ⟨row, hrow, hcf⟩ := List.mem_flatMap.mp hc
  have hmf := List.mem_filter.mp hcf
  have h2 := hmf.2
  simp only [Bool.and_eq_true, beq_iff_eq] at h2
  exact ⟨h2.1, h2.2, row, hrow, hmf.1⟩

/-- Claim C1: Every successful `add_city_with_zone` call picked an unowned earth
seed and computed a zone of exactly `zone_size` cells, all earth, none the
seed itself, each reachable from the seed by orthogonal steps through the
zone; the result grid is the input grid with the city cell marked
`is_city = true, owner = player` and every zone cell marked
`in_zone = true, owner = player`; and the returned cell is the mutated city
cell. -/
theorem c1_zone_assignment (g : Grid) (n p : Nat) (r : Rng) (wf : WFGrid g)
    (c : Cell) (hok : (add_city_with_zone g n p r).res = .ok c) :
    ∃ (city : Cell) (zone : List Cell),
      city ∈ earthCells g ∧
      zone.length = n ∧
      (∀ z ∈ zone, z ≠ city ∧ z.terrain = "earth" ∧ ReachableVia zone city z) ∧
      c = setCityCell p city ∧ c.is_city = true ∧ c.owner = some p ∧
      (add_city_with_zone g n p r).grid = applyZone g city zone p ∧
      (getCell (add_city_with_zone g n p r).grid city.x city.y).is_city = true ∧
      (getCell (add_city_with_zone g n p r).grid city.x city.y).owner = some p ∧
      (∀ z ∈ zone,
        (getCell (add_city_with_zone g n p r).grid z.x z.y).in_zone = true ∧
        (getCell (add_city_with_zone g n p r).grid z.x z.y).owner = some p) := by
  have hres : ∃ (city : Cell) (zone : List Cell) (r₁ : Rng),
      city ∈ earthCells g ∧ (compute_zone g city n r₁).1 = some zone ∧ zone ≠ [] ∧
      c = setCityCell p city ∧
      (add_city_with_zone g n p r).grid = applyZone g city zone p := by
    unfold add_city_with_zone at hok ⊢
    by_cases hec : (earthCells g).length = 0
    · rw [if_pos hec] at hok
      exact absurd hok (by intro h; injection h)
    · rw [if_neg hec] at hok ⊢
      have hne : earthCells g ≠ [] := fun h => hec (by rw [h]; rfl)
      exact (addCityAttempts_spec g n p (earthCells g) hne 100 r).2.2 c hok
  obtain ⟨city, zone, r₁, hcity_mem, hzone, hzne, hcdef, hgrid⟩ := hres
  obtain ⟨hterr, hown, row, hrow, hcrow⟩ := mem_earthCells g city hcity_mem
  have hcg := mem_grid_getCell wf hrow hcrow
  have hcityin : inGridCell g city :=
    ⟨hcg.1, by rw [wf.1 city.y hcg.1]; exact hcg.2.1, hcg.2.2⟩
  obtain ⟨hlen, hzok⟩ := compute_zone_spec g city n r₁ wf hcityin zone
    (compute_zone g city n r₁).2 (Prod.ext hzone rfl)
  have hg1 : getCell (updateAt g city.x city.y (setCityCell p)) city.x city.y =
      setCityCell p city := by
    rw [getCell_updateAt_same _ _ _ _ hcityin.1 hcityin.2.1, hcityin.2.2]
  have hkeep := foldl_updateAt_keeps (setZoneCell p)
    (fun d => d.is_city = true ∧ d.owner = some p)
    (fun d hd => ⟨by simp [setZoneCell]; exact hd.1, by simp [setZoneCell]⟩) zone
    (updateAt g city.x city.y (setCityCell p)) city.x city.y
    (by rw [hg1]; exact ⟨rfl, rfl⟩)
  have hsets := foldl_updateAt_sets (setZoneCell p)
    (fun d => d.in_zone = true ∧ d.owner = some p)
    (fun d => ⟨rfl, rfl⟩) zone (updateAt g city.x city.y (setCityCell p))
    (fun z hz => by
      rw [length_updateAt, rowLen_updateAt]
      exact ⟨(hzok z hz).2.2.1.1, (hzok z hz).2.2.1.2.1⟩)
  refine ⟨city, zone, hcity_mem, hlen,
    fun z hz => ⟨(hzok z hz).1, (hzok z hz).2.1, (hzok z hz).2.2.2⟩,
    hcdef, by rw [hcdef]; rfl, by rw [hcdef]; rfl, hgrid, ?_, ?_, ?_⟩
  · rw [hgrid]
    exact hkeep.1
  · rw [hgrid]
    exact hkeep.2
  · intro z hz
    rw [hgrid]
    exact ⟨(hsets z hz).1, (hsets z hz).2⟩

/-- Witness for C1: on the 2×2 earth grid with the all-zeros stream the call
succeeds on the first attempt, seeding at the origin. -/
theorem c1_zone_assignment_witness :
    ∃ (city : Cell) (zone : List Cell),
      city ∈ earthCells exGrid22 ∧
      zone.length = 1 ∧
      (∀ z ∈ zone, z ≠ city ∧ z.terrain = "earth" ∧ ReachableVia zone city z) ∧
      setCityCell 1 (exEarth 0 0) = setCityCell 1 city ∧
      (setCityCell 1 (exEarth 0 0)).is_city = true ∧
      (setCityCell 1 (exEarth 0 0)).owner = some 1 ∧
      (add_city_with_zone exGrid22 1 1 zeroRng).grid = applyZone exGrid22 city zone 1 ∧
      (getCell (add_city_with_zone exGrid22 1 1 zeroRng).grid city.x city.y).is_city =
        true ∧
      (getCell (add_city_with_zone exGrid22 1 1 zeroRng).grid city.x city.y).owner =
        some 1 ∧
      (∀ z ∈ zone,
        (getCell (add_city_with_zone exGrid22 1 1 zeroRng).grid z.x z.y).in_zone = true ∧
        (getCell (add_city_with_zone exGrid22 1 1 zeroRng).grid z.x z.y).owner =
          some 1) :=
  c1_zone_assignment exGrid22 1 1 zeroRng (by decide) (setCityCell 1 (exEarth 0 0))
    (by rfl)

/-! ## C4 — the ownership invariant -/

theorem CellInv_captureCell (c : Cell) : CellInv (captureCell c) := by
  unfold CellInv captureCell
  simp

theorem CellInv_setCityCell (p : Nat) (c : Cell) : CellInv (setCityCell p c) := by
  unfold CellInv setCityCell
  simp

theorem CellInv_setZoneCell (p : Nat) (c : Cell) : CellInv (setZoneCell p c) := by
  unfold CellInv setZoneCell
  simp

theorem GridInv_updateAt (g : Grid) (x y : Nat) (f : Cell → Cell)
    (hf : ∀ c, CellInv c → CellInv (f c)) (h : GridInv g) : GridInv (updateAt g x y f) := by
  intro y' hy' x' hx'
  rw [length_updateAt] at hy'
  rw [rowLen_updateAt] at hx'
  rw [getCell_updateAt]
  split_ifs with hc
  · exact hf _ (h y hc.2.2.1 x hc.2.2.2)
  · exact h y' hy' x' hx'

theorem GridInv_foldl_updateAt (f : Cell → Cell) (hf : ∀ c, CellInv c → CellInv (f c))
    (l : List Cell) : ∀ g : Grid, GridInv g →
    GridInv (l.foldl (fun acc c => updateAt acc c.x c.y f) g) := by
  induction l with
  | nil => intro g h; exact h
  | cons c cs ih =>
    intro g h
    show GridInv (cs.foldl (fun acc c => updateAt acc c.x c.y f) (updateAt g c.x c.y f))
    exact ih _ (GridInv_updateAt g c.x c.y f hf h)

theorem CellInv_shadeCellOwnership (g : Grid) (c : Cell) :
    CellInv (shadeCellOwnership g c) ↔ CellInv c := by
  unfold CellInv
  rw [(shadeCellOwnership_fields g c).2.2.2.1, (shadeCellOwnership_fields g c).2.2.2.2.1,
    (shadeCellOwnership_fields g c).2.2.2.2.2]

theorem GridInv_shade_city_and_zone (g : Grid) (h : GridInv g) :
    GridInv (shade_city_and_zone g) := by
  intro y' hy' x' hx'
  rw [length_shade_city_and_zone] at hy'
  rw [rowLen_shade_city_and_zone] at hx'
  rw [getCell_shade_city_and_zone g x' y' hy' hx']
  exact (CellInv_shadeCellOwnership g _).mpr (h y' hy' x' hx')

theorem GridInv_shadeGridAux (g : Grid) (ps : List (Nat × Nat)) : ∀ (acc : Grid) (r : Rng),
    GridInv acc → GridInv (shadeGridAux g ps acc r).1 := by
  induction ps with
  | nil => intro acc r h; exact h
  | cons p ps ih =>
    obtain ⟨a, b⟩ := p
    intro acc r h
    have hstep : shadeGridAux g ((a, b) :: ps) acc r =
        shadeGridAux g ps (updateAt acc a b (fun c =>
          { c with display_color := (apply_variance (shadeCellTerrain g a b r).1 0
              (shadeCellTerrain g a b r).2).1 }))
          (apply_variance (shadeCellTerrain g a b r).1 0 (shadeCellTerrain g a b r).2).2 :=
      rfl
    rw [hstep]
    exact ih _ _ (GridInv_updateAt acc a b _ (fun c hc => hc) h)

/-- Claim C4, amended: The ownership equivalence `owner ≠ null ↔ is_city ∨
in_zone` is preserved by every operation of the core: both shading passes
(which never touch ownership fields), combat resolution (captures set `owner`
and `in_zone` together), and zone assignment (the city stamp sets `owner` with
`is_city`, the zone stamp `owner` with `in_zone`, and a failed call hands the
grid back unchanged).  It is *not* re-established by cell construction or by
loading a persisted map, which can produce owned cells that are neither
cities nor in zones. -/
theorem c4_ownership_invariant (g : Grid) (hinv : GridInv g) (r : Rng) (t : Option Nat)
    (n p : Nat) :
    GridInv ((shade_grid g r).1) ∧
    GridInv (shade_city_and_zone g) ∧
    GridInv ((launch_attack g t r).1) ∧
    GridInv ((add_city_with_zone g n p r).grid) := by
  refine ⟨GridInv_shadeGridAux g (rowMajor g) g r hinv,
    GridInv_shade_city_and_zone g hinv, ?_, ?_⟩
  · rw [launch_attack_eq]
    split_ifs
    · exact hinv
    · exact GridInv_shade_city_and_zone _
        (GridInv_foldl_updateAt captureCell (fun c _ => CellInv_captureCell c) _ g hinv)
  · unfold add_city_with_zone
    by_cases hec : (earthCells g).length = 0
    · rw [if_pos hec]
      exact hinv
    · rw [if_neg hec]
      have hne : earthCells g ≠ [] := fun h => hec (by rw [h]; rfl)
      obtain ⟨_, herr, hok⟩ := addCityAttempts_spec g n p (earthCells g) hne 100 r
      cases hres : (addCityAttempts g n p (earthCells g) 100 r).res with
      | error e =>
        rw [(herr e hres).1]
        exact hinv
      | ok c =>
        obtain ⟨city, zone, r₁, _, _, _, _, hgr⟩ := hok c hres
        rw [hgr]
        unfold applyZone
        exact GridInv_foldl_updateAt (setZoneCell p) (fun c _ => CellInv_setZoneCell p c)
          zone _ (GridInv_updateAt g city.x city.y (setCityCell p)
            (fun c _ => CellInv_setCityCell p c) hinv)

/-- Counterexample for C4 as stated: loading a persisted map whose cell is
owned but not a city yields a cell with a non-null owner that is neither a
city nor in a zone — the equivalence does not hold "at all times". -/
theorem c4_counterexample :
    ¬ CellInv (getCell (load_grid exOwnedNonCityData).1 0 0) := by
  decide

/-- Witness for C4 (amended): the invariant holds on the concrete combat grid
and is preserved by the ownership shading pass there. -/
theorem c4_ownership_invariant_witness :
    GridInv (shade_city_and_zone exAttackGrid) :=
  (c4_ownership_invariant exAttackGrid (by decide) zeroRng (some 2) 1 1).2.1
